import Mathlib

/-!
# Burrow: native contract registry and public keys

A shallow embedding of `execution/evm/native.go` and `crypto/public_key.go`.

Conventions of the embedding:

* a Go byte slice is a `List UInt8`; the nil slice is the empty list (the
  code here only takes lengths, copies and returns slices, and Go gives the
  nil slice length 0);
* a `uint64` is a natural number below `2 ^ 64`, and every `uint64` operation
  of the source is written with an explicit `% 2 ^ 64`;
* a pointer argument that the callee writes through (`gas *uint64`, the
  receiver of `UnmarshalJSON`) becomes an input value and a field of the
  result;
* packages that are not part of the files at hand (gas constants, hash
  functions, the coded-error package, the JSON library, the methods of
  `CurveType`) are parameters, bundled in small structures.
-/

namespace Burrow

/-- A Go `[]byte`. -/
abbrev Bytes := List UInt8

/-- The modulus of `uint64` arithmetic. -/
def uint64Size : Nat := 2 ^ 64

/-! ## Errors -/

/-- The error codes of `execution/errors` that `native.go` names; every other
code of that package is `other n`. -/
inductive Code where
  | ErrorCodeInsufficientGas
  | ErrorCodeNativeFunction
  | other (n : Nat)
  deriving DecidableEq, Repr

/-- A Go `error` value as `native.go` and `public_key.go` see it: either an
`errors.Code` returned as an error (the native functions return
`errors.ErrorCodeInsufficientGas` itself), or any other error, identified by
the text its `Error()` method gives. -/
inductive error where
  | code (c : Code)
  | text (msg : String)
  deriving DecidableEq, Repr

/-- A non-nil `errors.CodedError` as `ExecuteNativeContract` returns it: the
interface value holds an `*Exception`, which points to an exception with a code
and a message, or is the nil pointer (an interface value that is not nil and
carries neither code nor message). -/
inductive CodedError where
  | exception (code : Code) (message : String)
  | nilException
  deriving DecidableEq, Repr

/-- The texts produced outside the files at hand: `Code.Error()` of
`execution/errors`, and the `%v` rendering of
`crypto.AddressFromWord256(address)`. -/
structure Texts (W : Type) where
  codeError : Code → String
  address : W → String

/-- The method `err.Error()`. -/
def error.Error {W : Type} (T : Texts W) : error → String
  | .code c => T.codeError c
  | .text msg => msg

/-- Modelled from the spec: the constructor `errors.NewCodedError(code, message)`
of package `execution/errors`, which is not among the files at hand. The spec
has the error "wrapped into a uniform coded error category ... carrying the
underlying message"; the constructor of the package guards on the message and
returns the nil `*Exception` when the message is empty. -/
def NewCodedError (c : Code) (message : String) : CodedError :=
  if message = "" then .nilException else .exception c message

/-- The call `errors.ErrorCodef(code, "no native contract registered at address: %v", a)`. -/
def ErrorCodef {W : Type} (T : Texts W) (c : Code) (address : W) : CodedError :=
  NewCodedError c ("no native contract registered at address: " ++ T.address address)

/-! ## Gas constants and hash functions (parameters) -/

/-- The six `uint64` gas constants that `native.go` reads; they are declared
in another file of the package. -/
structure GasConstants where
  GasSha256Word : Nat
  GasSha256Base : Nat
  GasRipemd160Word : Nat
  GasRipemd160Base : Nat
  GasIdentityWord : Nat
  GasIdentityBase : Nat

/-- The two digest functions of the external packages `crypto/sha256` and
`golang.org/x/crypto/ripemd160`: `New()`, `Write(input)`, `Sum(nil)`. -/
structure Hashers where
  sha256 : Bytes → Bytes
  ripemd160 : Bytes → Bytes

/-- Modelled from the spec: `LeftPadBytes` of the `binary` package, which is not
among the files at hand; "left-padded with zero bytes to 32 bytes". A slice
that is already at least `l` long is returned as it is. -/
def LeftPadBytes (slice : Bytes) (l : Nat) : Bytes :=
  List.replicate (l - slice.length) 0 ++ slice

/-! ## Native contracts -/

/-- What a call of a native contract leaves behind: the two returned values
`(output, err)`, the gas counter behind the `gas *uint64` pointer, and the
state capability (which a contract may write through). -/
structure NativeResult (σ : Type) where
  output : Bytes
  err : Option error
  gas : Nat
  state : σ

/-- The Go type `NativeContract`. The type parameters stand for
`state.ReaderWriter`, `acm.Account` and `*logging.Logger`. -/
abbrev NativeContract (σ κ L : Type) : Type :=
  σ → κ → Bytes → Nat → L → NativeResult σ

/-- The expression `uint64((len(input)+31)/32)*Word + Base` that each of the
three native functions evaluates with its own two constants. The length of a
slice is a non-negative `int` far below `2 ^ 63`, so `len(input)+31` and the
conversion to `uint64` are exact; the multiplication and the addition are
`uint64` operations. -/
def gasRequired (word base : Nat) (input : Bytes) : Nat :=
  (((input.length + 31) / 32) * word + base) % uint64Size

/-- The statement `*gas -= gasRequired` on a `uint64`. -/
def subUint64 (gas required : Nat) : Nat :=
  (gas + uint64Size - required % uint64Size) % uint64Size

/-- The function `sha256Func`. -/
def sha256Func {σ κ L : Type} (G : GasConstants) (H : Hashers) : NativeContract σ κ L :=
  fun state _caller input gas _logger =>
    let required := gasRequired G.GasSha256Word G.GasSha256Base input
    if gas < required then
      { output := [], err := some (.code .ErrorCodeInsufficientGas), gas := gas, state := state }
    else
      { output := H.sha256 input, err := none, gas := subUint64 gas required, state := state }

/-- The function `ripemd160Func`. -/
def ripemd160Func {σ κ L : Type} (G : GasConstants) (H : Hashers) : NativeContract σ κ L :=
  fun state _caller input gas _logger =>
    let required := gasRequired G.GasRipemd160Word G.GasRipemd160Base input
    if gas < required then
      { output := [], err := some (.code .ErrorCodeInsufficientGas), gas := gas, state := state }
    else
      { output := LeftPadBytes (H.ripemd160 input) 32, err := none,
        gas := subUint64 gas required, state := state }

/-- The function `identityFunc`. -/
def identityFunc {σ κ L : Type} (G : GasConstants) : NativeContract σ κ L :=
  fun state _caller input gas _logger =>
    let required := gasRequired G.GasIdentityWord G.GasIdentityBase input
    if gas < required then
      { output := [], err := some (.code .ErrorCodeInsufficientGas), gas := gas, state := state }
    else
      { output := input, err := none, gas := subUint64 gas required, state := state }

/-! ## The registry and the dispatcher -/

/-- The package variable `registeredNativeContracts`, a Go map from `Word256`
to `NativeContract`: `none` is an absent key. The key type `W` stands for
`Word256`. -/
abbrev Registry (W σ κ L : Type) : Type := W → Option (NativeContract σ κ L)

/-- The function `IsRegisteredNativeContract`. -/
def IsRegisteredNativeContract {W σ κ L : Type} (reg : Registry W σ κ L) (address : W) : Bool :=
  (reg address).isSome

/-- The map assignment `registeredNativeContracts[addr] = fn`. -/
def Registry.insert {W σ κ L : Type} [DecidableEq W] (reg : Registry W σ κ L) (addr : W)
    (fn : NativeContract σ κ L) : Registry W σ κ L :=
  fun a => if a = addr then some fn else reg a

/-- The function `RegisterNativeContract`: the registry it leaves and the
boolean it returns. -/
def RegisterNativeContract {W σ κ L : Type} [DecidableEq W] (reg : Registry W σ κ L) (addr : W)
    (fn : NativeContract σ κ L) : Registry W σ κ L × Bool :=
  match reg addr with
  | some _ => (reg, false)
  | none => (reg.insert addr fn, true)

/-- What `ExecuteNativeContract` leaves behind: the returned pair
`(output, CodedError)`, the gas counter and the state capability. -/
structure ExecResult (σ : Type) where
  output : Bytes
  err : Option CodedError
  gas : Nat
  state : σ

/-- The function `ExecuteNativeContract`. -/
def ExecuteNativeContract {W σ κ L : Type} (T : Texts W) (reg : Registry W σ κ L) (address : W)
    (state : σ) (caller : κ) (input : Bytes) (gas : Nat) (logger : L) : ExecResult σ :=
  match reg address with
  | none =>
    { output := [], err := some (ErrorCodef T .ErrorCodeNativeFunction address),
      gas := gas, state := state }
  | some contract =>
    let r := contract state caller input gas logger
    match r.err with
    | some e =>
      { output := [], err := some (NewCodedError .ErrorCodeNativeFunction (e.Error T)),
        gas := r.gas, state := r.state }
    | none => { output := r.output, err := none, gas := r.gas, state := r.state }

/-- A sequence of `RegisterNativeContract` calls, run in order from `reg`: the
registry after the last call and the booleans returned, in call order. -/
def registerAll {W σ κ L : Type} [DecidableEq W] (reg : Registry W σ κ L) :
    List (W × NativeContract σ κ L) → Registry W σ κ L × List Bool
  | [] => (reg, [])
  | (addr, fn) :: calls =>
    let step := RegisterNativeContract reg addr fn
    let rest := registerAll step.1 calls
    (rest.1, step.2 :: rest.2)

/-! ## Curve types and public keys -/

/-- Modelled from the spec: the type `CurveType` is declared outside the files
at hand. The spec lists the tags `Unset`, `Ed25519`, `Secp256k1`; the source
switches on a `CurveType` with a `default` branch next to these three and
prints it with `%d`, so it is an integer type with further values, which are
`unknown n` here. -/
inductive CurveType where
  | CurveTypeUnset
  | CurveTypeEd25519
  | CurveTypeSecp256k1
  | unknown (n : Nat)
  deriving DecidableEq, Repr

/-- Modelled from the spec: the methods of `CurveType` and its constructor
from a name, declared outside the files at hand. The spec gives every curve "a
single-byte wire discriminant" (`Byte`), "a string name used in textual
encoding" (`String`), "an external-protocol type tag" (`ABCIType`) and
`from_name(string) -> CurveType | error` (`CurveTypeFromString`), and leaves
their values open: they are fields. -/
structure CurveTypeMethods where
  Byte : CurveType → UInt8
  ABCIType : CurveType → String
  CurveTypeFromString : String → Except error CurveType
  String : CurveType → String

/-- The struct `PublicKey`, with the two fields the source reads and writes. -/
structure PublicKey where
  CurveType : CurveType
  Key : Bytes
  deriving DecidableEq, Repr

/-- The struct `PublicKeyJSON`. -/
structure PublicKeyJSON where
  CurveType : String
  PublicKey : String
  deriving DecidableEq, Repr

/-- The function `PublicKeyLength`; `ed25519.PublicKeySize` is 32 and
`btcec.PubKeyBytesLenCompressed` is 33. -/
def PublicKeyLength : CurveType → Nat
  | .CurveTypeEd25519 => 32
  | .CurveTypeSecp256k1 => 33
  | _ => 0

/-- The method `IsValid`. -/
def PublicKey.IsValid (p : PublicKey) : Bool :=
  let publicKeyLength := PublicKeyLength p.CurveType
  publicKeyLength != 0 && publicKeyLength == p.Key.length

/-- The method `IsSet`. -/
def PublicKey.IsSet (p : PublicKey) : Bool :=
  p.CurveType != .CurveTypeUnset && p.IsValid

/-- The Go builtin `copy(dst, src)`: the first `min(len(dst), len(src))`
elements of `dst` are overwritten with those of `src`. -/
def copy (dst src : Bytes) : Bytes :=
  src.take dst.length ++ dst.drop src.length

/-- The method `Encode`: `make` gives a zero-filled slice, index 0 receives the
tag, and `copy` writes the key into `encoded[1:]`. -/
def PublicKey.Encode (M : CurveTypeMethods) (p : PublicKey) : Bytes :=
  let encoded : Bytes := List.replicate (PublicKeyLength p.CurveType + 1) 0
  let encoded := encoded.set 0 (M.Byte p.CurveType)
  encoded.take 1 ++ copy (encoded.drop 1) p.Key

/-- Modelled from the spec: the binary decoder is not among the files at hand.
"`decode(bytes)`: inverse of encode; fails if the available length does not
match the tag's expected length", "No length prefix; decoder infers `N` from
the tag": the first byte is looked up among the wire tags of the curves with a
key length, and the `N` bytes after it are the key. -/
def decode (M : CurveTypeMethods) (bs : Bytes) : Option PublicKey :=
  match bs with
  | [] => none
  | tag :: rest =>
    match [CurveType.CurveTypeEd25519, CurveType.CurveTypeSecp256k1].find?
        (fun c => M.Byte c == tag) with
    | none => none
    | some c =>
      if rest.length = PublicKeyLength c then
        some { CurveType := c, Key := rest.take (PublicKeyLength c) }
      else none

/-! ### Hexadecimal text (external package `go-hex`) -/

/-- The upper-case hexadecimal digit of a value below 16. -/
def hexDigitUpper (n : Nat) : Char :=
  if n < 10 then Char.ofNat (48 + n) else Char.ofNat (55 + n)

/-- The function `hex.EncodeUpperToString`: two upper-case digits per byte,
the high half first. -/
def EncodeUpperToString (bs : Bytes) : String :=
  String.mk (bs.flatMap fun b => [hexDigitUpper (b.toNat / 16), hexDigitUpper (b.toNat % 16)])

/-- The value of one hexadecimal digit, in either case; `none` for any other
character. -/
def fromHexChar (c : Char) : Option Nat :=
  let n := c.toNat
  if 48 ≤ n ∧ n ≤ 57 then some (n - 48)
  else if 97 ≤ n ∧ n ≤ 102 then some (n - 87)
  else if 65 ≤ n ∧ n ≤ 70 then some (n - 55)
  else none

/-- A stand-in for the error value `ErrLength` that `hex.DecodeString` returns
on a text of odd length; the text of the library's error is not reproduced. -/
def hexErrLength : error := .text "hex: odd length hex string"

/-- A stand-in for the error value `InvalidByteError` that `hex.DecodeString`
returns on a character that is not a digit; the text of the library's error is
not reproduced. -/
def hexInvalidByteError (c : Char) : error := .text ("hex: invalid byte: " ++ c.toString)

/-- The digits of a text with an even number of bytes, pair by pair; the first
character that is not a digit is reported. A last character left alone spans
several bytes, so it is not a digit. -/
def decodeHexChars : List Char → Except error Bytes
  | [] => .ok []
  | [c] => .error (hexInvalidByteError c)
  | a :: b :: rest =>
    match fromHexChar a, fromHexChar b with
    | some x, some y =>
      match decodeHexChars rest with
      | .ok bs => .ok (UInt8.ofNat (16 * x + y) :: bs)
      | .error e => .error e
    | none, _ => .error (hexInvalidByteError a)
    | _, none => .error (hexInvalidByteError b)

/-- The function `hex.DecodeString`: a text with an odd number of bytes is
refused first, then the digits are read pair by pair. -/
def DecodeString (s : String) : Except error Bytes :=
  if s.utf8ByteSize % 2 ≠ 0 then .error hexErrLength else decodeHexChars s.data

/-! ### JSON text -/

/-- The two functions of the external package `encoding/json` at the type
`PublicKeyJSON`: `json.Marshal(jStruct)` with its pair of results, and
`json.Unmarshal(text, &jStruct)` with the struct it fills or its error. -/
structure JSONCodec where
  Marshal : PublicKeyJSON → Bytes × Option error
  Unmarshal : Bytes → Except error PublicKeyJSON

/-- The struct that `MarshalJSON` hands to the JSON library. -/
def PublicKey.jStruct (M : CurveTypeMethods) (p : PublicKey) : PublicKeyJSON :=
  { CurveType := M.String p.CurveType, PublicKey := EncodeUpperToString p.Key }

/-- The method `MarshalJSON`. -/
def PublicKey.MarshalJSON (M : CurveTypeMethods) (J : JSONCodec) (p : PublicKey) :
    Bytes × Option error :=
  J.Marshal (p.jStruct M)

/-- The method `MarshalText`. -/
def PublicKey.MarshalText (M : CurveTypeMethods) (J : JSONCodec) (p : PublicKey) :
    Bytes × Option error :=
  p.MarshalJSON M J

/-- The method `UnmarshalJSON` on the receiver `p`: the receiver after the
call and the returned error. -/
def PublicKey.UnmarshalJSON (M : CurveTypeMethods) (J : JSONCodec) (p : PublicKey)
    (text : Bytes) : PublicKey × Option error :=
  match J.Unmarshal text with
  | .error err => (p, some err)
  | .ok jStruct =>
    match M.CurveTypeFromString jStruct.CurveType with
    | .error err => (p, some err)
    | .ok curveType =>
      match DecodeString jStruct.PublicKey with
      | .error err => (p, some err)
      | .ok bs => ({ CurveType := curveType, Key := bs }, none)

/-- The method `UnmarshalText`. -/
def PublicKey.UnmarshalText (M : CurveTypeMethods) (J : JSONCodec) (p : PublicKey)
    (text : Bytes) : PublicKey × Option error :=
  p.UnmarshalJSON M J text

/-! ## Verification, addresses, the ABCI adapter, start-up registration -/

/-- How a Go call ends: it returns its value, or it panics. -/
inductive Outcome (α : Type) where
  | returned (value : α)
  | panicked
  deriving DecidableEq, Repr

/-- The signature functions of the external packages
`golang.org/x/crypto/ed25519` and `btcec`, and the two renderings that the
error texts of `Verify` use: `%X` of a `Signature` and `%v` of an error. The
field `ed25519` is the verdict of `ed25519.Verify` on a key of the right
length. -/
structure Verifiers (PubKey Sig : Type) where
  ed25519 : Bytes → Bytes → Bytes → Bool
  ParsePubKey : Bytes → Except error PubKey
  ParseDERSignature : Bytes → Except error Sig
  sigVerify : Sig → Bytes → PubKey → Bool
  signatureText : Bytes → String
  errText : error → String

/-- The function `ed25519.Verify(publicKey, message, sig)` of
`golang.org/x/crypto/ed25519`, whose documentation reads "It will panic if
len(publicKey) is not PublicKeySize"; `PublicKeySize` is 32. -/
def ed25519Verify {PubKey Sig : Type} (V : Verifiers PubKey Sig)
    (publicKey message sig : Bytes) : Outcome Bool :=
  if publicKey.length ≠ 32 then .panicked else .returned (V.ed25519 publicKey message sig)

/-- The quotation mark that the error texts of `Verify` put around a signature. -/
def quoteMark : String := String.singleton (Char.ofNat 39)

/-- The method `Verify`. -/
def PublicKey.Verify {PubKey Sig : Type} (V : Verifiers PubKey Sig) (p : PublicKey)
    (msg signature : Bytes) : Outcome (Option error) :=
  match p.CurveType with
  | .CurveTypeUnset => .returned (some (.text "public key is unset"))
  | .CurveTypeEd25519 =>
    match ed25519Verify V p.Key msg signature with
    | .panicked => .panicked
    | .returned true => .returned none
    | .returned false =>
      .returned (some (.text (quoteMark ++ V.signatureText signature ++ quoteMark ++
        " is not a valid ed25519 signature for message: " ++ EncodeUpperToString msg)))
  | .CurveTypeSecp256k1 =>
    match V.ParsePubKey p.Key with
    | .error err =>
      .returned (some (.text ("could not parse secp256k1 public key: " ++ V.errText err)))
    | .ok pub =>
      match V.ParseDERSignature signature with
      | .error err =>
        .returned (some (.text
          ("could not parse DER signature for secp256k1 key: " ++ V.errText err)))
      | .ok sig =>
        if V.sigVerify sig msg pub then .returned none
        else
          .returned (some (.text (quoteMark ++ V.signatureText signature ++ quoteMark ++
            " is not a valid secp256k1 signature for message: " ++ EncodeUpperToString msg)))
  | .unknown _ => .returned (some (.text "invalid curve type"))

/-- The functions that `Address` calls outside the files at hand: `tmhash.Sum`
of Tendermint, and `AddressFromBytes` with its pair of results, of which
`Address` keeps the first. The type parameter stands for `Address`. -/
structure AddressFunctions (A : Type) where
  tmhashSum : Bytes → Bytes
  AddressFromBytes : Bytes → A × Option error

/-- The method `Address`. -/
def PublicKey.Address {A : Type} (H : Hashers) (F : AddressFunctions A) (p : PublicKey) :
    Outcome A :=
  match p.CurveType with
  | .CurveTypeEd25519 => .returned (F.AddressFromBytes (F.tmhashSum p.Key)).1
  | .CurveTypeSecp256k1 => .returned (F.AddressFromBytes (H.ripemd160 (H.sha256 p.Key))).1
  | _ => .panicked

/-- The method `RawBytes`. -/
def PublicKey.RawBytes (p : PublicKey) : Bytes := p.Key

/-- The struct `abci.PubKey`; its field `Type` is `TypeTag` here. -/
structure ABCIPubKey where
  TypeTag : String
  Data : Bytes
  deriving DecidableEq, Repr

/-- The method `ABCIPubKey`. -/
def PublicKey.ABCIPubKey (M : CurveTypeMethods) (p : PublicKey) : Burrow.ABCIPubKey :=
  { TypeTag := M.ABCIType p.CurveType, Data := p.RawBytes }

/-- The function `PublicKeyFromABCIPubKey`; the cases of the switch are tried
in order. On failure only the error is kept. -/
def PublicKeyFromABCIPubKey (M : CurveTypeMethods) (pubKey : ABCIPubKey) :
    Except error PublicKey :=
  if pubKey.TypeTag = M.ABCIType .CurveTypeEd25519 then
    .ok { CurveType := .CurveTypeEd25519, Key := pubKey.Data }
  else if pubKey.TypeTag = M.ABCIType .CurveTypeSecp256k1 then
    .ok { CurveType := .CurveTypeEd25519, Key := pubKey.Data }
  else .error (.text ("did not recognise ABCI PubKey type: " ++ pubKey.TypeTag))

/-- The function `registerNativeContracts`, run on the registry `reg`; the
parameter `Int64ToWord256` is the function of that name of the `binary`
package. -/
def registerNativeContracts {W σ κ L : Type} [DecidableEq W] (Int64ToWord256 : Int → W)
    (G : GasConstants) (H : Hashers) (reg : Registry W σ κ L) : Registry W σ κ L :=
  ((reg.insert (Int64ToWord256 2) (sha256Func G H)).insert
    (Int64ToWord256 3) (ripemd160Func G H)).insert (Int64ToWord256 4) (identityFunc G)

/-! ## Concrete parameters, for evaluating the definitions -/

/-- A gas schedule with distinct constants. -/
def sampleGas : GasConstants :=
  { GasSha256Word := 12, GasSha256Base := 60, GasRipemd160Word := 120,
    GasRipemd160Base := 600, GasIdentityWord := 3, GasIdentityBase := 15 }

/-- Two stand-in digest functions of the right output lengths. -/
def sampleHashers : Hashers :=
  { sha256 := fun input => List.replicate 32 (UInt8.ofNat input.length),
    ripemd160 := fun input => List.replicate 20 (UInt8.ofNat input.length) }

/-- Texts for codes and for addresses that are natural numbers. -/
def sampleTexts : Texts Nat :=
  { codeError := fun c =>
      match c with
      | .ErrorCodeInsufficientGas => "insufficient gas"
      | .ErrorCodeNativeFunction => "native function error"
      | .other _ => "error",
    address := fun a => toString a }

/-- The registry with no key. -/
def emptyRegistry (W σ κ L : Type) : Registry W σ κ L := fun _ => none

/-- A native contract that spends one unit of gas and fails with `msg`. -/
def failingContract (msg : String) : NativeContract Unit Unit Unit :=
  fun state _ _ gas _ => { output := [1], err := some (.text msg), gas := gas - 1, state := state }

/-- A native contract that spends no gas, returns no output and fails with
`msg`. -/
def forgingContract (msg : String) : NativeContract Unit Unit Unit :=
  fun state _ _ gas _ => { output := [], err := some (.text msg), gas := gas, state := state }

/-- One choice of the methods of `CurveType`: tags 0, 1, 2 and the names of
the two curves. -/
def sampleCurveTypeMethods : CurveTypeMethods :=
  { Byte := fun c =>
      match c with
      | .CurveTypeUnset => 0
      | .CurveTypeEd25519 => 1
      | .CurveTypeSecp256k1 => 2
      | .unknown n => UInt8.ofNat n,
    ABCIType := fun c =>
      match c with
      | .CurveTypeEd25519 => "ed25519"
      | .CurveTypeSecp256k1 => "secp256k1"
      | _ => "",
    CurveTypeFromString := fun s =>
      if s = "ed25519" then .ok .CurveTypeEd25519
      else if s = "secp256k1" then .ok .CurveTypeSecp256k1
      else .error (.text "unknown curve name"),
    String := fun c =>
      match c with
      | .CurveTypeEd25519 => "ed25519"
      | .CurveTypeSecp256k1 => "secp256k1"
      | _ => "" }

/-- The bytes of a text of one-byte characters. -/
def textBytes (s : String) : Bytes := s.data.map fun c => UInt8.ofNat c.toNat

/-- The text of a sequence of bytes below 128. -/
def bytesText (bs : Bytes) : String := String.mk (bs.map fun b => Char.ofNat b.toNat)

/-- A stand-in for the JSON library that writes the two fields on two lines
and reads that layout back. -/
def sampleJSON : JSONCodec :=
  { Marshal := fun j => (textBytes j.CurveType ++ 10 :: textBytes j.PublicKey, none),
    Unmarshal := fun text =>
      match text.span (fun b => b != 10) with
      | (name, _ :: key) => .ok { CurveType := bytesText name, PublicKey := bytesText key }
      | (_, []) => .error (.text "unexpected end of JSON input") }

/-- An Ed25519 key of 32 bytes. -/
def sampleEd25519Key : PublicKey :=
  { CurveType := .CurveTypeEd25519, Key := (List.range 32).map fun i => UInt8.ofNat (8 * i + 3) }

/-- A Secp256k1 key of 33 bytes. -/
def sampleSecp256k1Key : PublicKey :=
  { CurveType := .CurveTypeSecp256k1, Key := (List.range 33).map fun i => UInt8.ofNat (7 * i + 2) }

/-- Stand-ins for the signature packages: a key parses when it has 33 bytes, a
signature parses when it starts with the byte 48, and a signature verifies
when its length is that of the message plus one. -/
def sampleVerifiers : Verifiers Bytes Bytes :=
  { ed25519 := fun _ message sig => sig.length == message.length + 1,
    ParsePubKey := fun key =>
      if key.length = 33 then .ok key else .error (.text "malformed public key"),
    ParseDERSignature := fun sig =>
      if sig.head? = some 48 then .ok sig else .error (.text "malformed signature"),
    sigVerify := fun sig message _ => sig.length == message.length + 1,
    signatureText := EncodeUpperToString,
    errText := fun e =>
      match e with
      | .code _ => "coded error"
      | .text msg => msg }

/-- Stand-ins for the address functions: the hash keeps the first 20 bytes,
and an address is a byte sequence, accepted when it has 20 bytes. -/
def sampleAddressFunctions : AddressFunctions Bytes :=
  { tmhashSum := fun bs => bs.take 20,
    AddressFromBytes := fun bs =>
      if bs.length = 20 then (bs, none) else ([], some (.text "wrong address length")) }

/-- Modelled from the spec: the spec gives each tag, `Unset` included, "a
string name used in textual encoding", which `from_name` reads. These are the
sample methods with the empty name read as `Unset`. -/
def unsetNamedCurveTypeMethods : CurveTypeMethods :=
  { sampleCurveTypeMethods with
    CurveTypeFromString := fun s =>
      if s = "" then .ok .CurveTypeUnset else sampleCurveTypeMethods.CurveTypeFromString s }

/-! ## Properties -/

/-- The outcome of the gas check of a native function that needs `required`
gas and is called with `g`: with too little gas nothing is returned, the error
is `ErrorCodeInsufficientGas` and the counter is untouched; otherwise there is
no error and the counter went down by exactly `required`. -/
def GasOutcome {σ : Type} (r : NativeResult σ) (g required : Nat) : Prop :=
  (g < required →
    r.output = [] ∧ r.err = some (.code .ErrorCodeInsufficientGas) ∧ r.gas = g) ∧
  (required ≤ g → r.err = none ∧ r.gas = g - required ∧ r.gas + required = g) ∧
  (g = required → r.err = none ∧ r.gas = 0) ∧
  (g + 1 = required → r.err = some (.code .ErrorCodeInsufficientGas) ∧ r.gas = g)

theorem gasRequired_lt (word base : Nat) (input : Bytes) :
    gasRequired word base input < uint64Size :=
  Nat.mod_lt _ (by unfold uint64Size; positivity)

theorem subUint64_eq (g required : Nat) (hg : g < uint64Size) (hr : required ≤ g) :
    subUint64 g required = g - required := by
  unfold subUint64
  have h1 : required % uint64Size = required := Nat.mod_eq_of_lt (lt_of_le_of_lt hr hg)
  rw [h1]
  have h2 : g + uint64Size - required = (g - required) + uint64Size := by omega
  rw [h2, Nat.add_mod_right]
  exact Nat.mod_eq_of_lt (lt_of_le_of_lt (Nat.sub_le _ _) hg)

theorem gasOutcome_fail {σ : Type} (st : σ) (g required : Nat) (h : g < required) :
    GasOutcome
      { output := [], err := some (.code .ErrorCodeInsufficientGas), gas := g, state := st }
      g required := by
  refine ⟨fun _ => ⟨rfl, rfl, rfl⟩, fun h2 => ?_, fun h2 => ?_, fun _ => ⟨rfl, rfl⟩⟩ <;> omega

theorem gasOutcome_ok {σ : Type} (out : Bytes) (st : σ) (g required : Nat)
    (hg : g < uint64Size) (h : ¬ g < required) :
    GasOutcome { output := out, err := none, gas := subUint64 g required, state := st }
      g required := by
  have hle : required ≤ g := Nat.le_of_not_lt h
  have hs := subUint64_eq g required hg hle
  refine ⟨fun h2 => absurd h2 h, fun _ => ⟨rfl, hs, ?_⟩, fun h2 => ⟨rfl, ?_⟩, fun h2 => ?_⟩
  · show subUint64 g required + required = g
    omega
  · show subUint64 g required = 0
    omega
  · omega

/-- C1: each of `sha256Func`, `ripemd160Func` and `identityFunc` deducts gas
atomically. For every input and every `uint64` gas value `g`, with `required`
the gas the function computes for the input: if `g < required` the output is
nil, the error is `ErrorCodeInsufficientGas` and the counter still holds `g`;
otherwise there is no error and the counter holds exactly `g - required`
(no wrap-around), so `g = required` leaves 0 and `g = required - 1` fails. -/
theorem C1_gas_deducted_atomically {σ κ L : Type} (G : GasConstants) (H : Hashers)
    (state : σ) (caller : κ) (input : Bytes) (g : Nat) (logger : L)
    (hg : g < uint64Size) :
    GasOutcome (sha256Func G H state caller input g logger) g
        (gasRequired G.GasSha256Word G.GasSha256Base input) ∧
      GasOutcome (ripemd160Func G H state caller input g logger) g
        (gasRequired G.GasRipemd160Word G.GasRipemd160Base input) ∧
      GasOutcome (identityFunc G state caller input g logger) g
        (gasRequired G.GasIdentityWord G.GasIdentityBase input) := by
  refine ⟨?_, ?_, ?_⟩
  · unfold sha256Func
    by_cases h : g < gasRequired G.GasSha256Word G.GasSha256Base input
    · simpa [h] using gasOutcome_fail state g _ h
    · simpa [h] using gasOutcome_ok _ state g _ hg h
  · unfold ripemd160Func
    by_cases h : g < gasRequired G.GasRipemd160Word G.GasRipemd160Base input
    · simpa [h] using gasOutcome_fail state g _ h
    · simpa [h] using gasOutcome_ok _ state g _ hg h
  · unfold identityFunc
    by_cases h : g < gasRequired G.GasIdentityWord G.GasIdentityBase input
    · simpa [h] using gasOutcome_fail state g _ h
    · simpa [h] using gasOutcome_ok _ state g _ hg h

/-- C1 at a three-byte input and 100 units of gas, with the sample schedule. -/
theorem C1_gas_deducted_atomically_witness :
    100 < uint64Size ∧
      GasOutcome (sha256Func sampleGas sampleHashers () () [1, 2, 3] 100 ()) 100
        (gasRequired sampleGas.GasSha256Word sampleGas.GasSha256Base [1, 2, 3]) ∧
      GasOutcome (ripemd160Func sampleGas sampleHashers () () [1, 2, 3] 100 ()) 100
        (gasRequired sampleGas.GasRipemd160Word sampleGas.GasRipemd160Base [1, 2, 3]) ∧
      GasOutcome (identityFunc sampleGas () () [1, 2, 3] 100 ()) 100
        (gasRequired sampleGas.GasIdentityWord sampleGas.GasIdentityBase [1, 2, 3]) :=
  ⟨by decide, C1_gas_deducted_atomically sampleGas sampleHashers () () [1, 2, 3] 100 ()
    (by decide)⟩

theorem ceil_div_32 (n : Nat) : ⌈(n : ℚ) / 32⌉₊ = (n + 31) / 32 := by
  apply le_antisymm
  · rw [Nat.ceil_le, div_le_iff₀ (by norm_num)]
    have h : n ≤ (n + 31) / 32 * 32 := by omega
    exact_mod_cast h
  · by_contra hlt
    have hle : (n : ℚ) / 32 ≤ (⌈(n : ℚ) / 32⌉₊ : ℚ) := Nat.le_ceil _
    rw [div_le_iff₀ (by norm_num)] at hle
    have hle2 : n ≤ ⌈(n : ℚ) / 32⌉₊ * 32 := by exact_mod_cast hle
    omega

/-- C2: the gas a reference native function requires, which the code computes
as `uint64((len(input)+31)/32)*Word + Base` with integer division, is
`ceil(len(input)/32)*Word + Base`, for every input and every pair of constants
(so for the pair of each of the three functions): as `uint64` values always,
and as plain numbers whenever the formula stays inside the `uint64` range.
Inputs of lengths 0, 1, 32, 33, 64 have 0, 1, 1, 2, 2 words, and an empty input
costs the base cost alone. -/
theorem C2_gas_required_is_ceil (word base : Nat) (input : Bytes) :
    gasRequired word base input
        = (⌈(input.length : ℚ) / 32⌉₊ * word + base) % uint64Size ∧
      (⌈(input.length : ℚ) / 32⌉₊ * word + base < uint64Size →
        gasRequired word base input = ⌈(input.length : ℚ) / 32⌉₊ * word + base) ∧
      (input.length = 0 → ⌈(input.length : ℚ) / 32⌉₊ = 0 ∧
        gasRequired word base input = base % uint64Size) ∧
      (input.length = 1 → ⌈(input.length : ℚ) / 32⌉₊ = 1 ∧
        gasRequired word base input = (1 * word + base) % uint64Size) ∧
      (input.length = 32 → ⌈(input.length : ℚ) / 32⌉₊ = 1 ∧
        gasRequired word base input = (1 * word + base) % uint64Size) ∧
      (input.length = 33 → ⌈(input.length : ℚ) / 32⌉₊ = 2 ∧
        gasRequired word base input = (2 * word + base) % uint64Size) ∧
      (input.length = 64 → ⌈(input.length : ℚ) / 32⌉₊ = 2 ∧
        gasRequired word base input = (2 * word + base) % uint64Size) := by
  have hc := ceil_div_32 input.length
  have key : gasRequired word base input
      = (⌈(input.length : ℚ) / 32⌉₊ * word + base) % uint64Size := by
    rw [hc]; rfl
  refine ⟨key, fun h => by rw [key, Nat.mod_eq_of_lt h], ?_, ?_, ?_, ?_, ?_⟩ <;>
    intro hlen <;> rw [key, hc, hlen] <;> simp

/-- C2 at a 33-byte input with the SHA-256 constants of the sample schedule:
two words, 84 units of gas. -/
theorem C2_gas_required_is_ceil_witness :
    (List.replicate 33 (0 : UInt8)).length = 33 ∧
      ⌈((List.replicate 33 (0 : UInt8)).length : ℚ) / 32⌉₊ = 2 ∧
      gasRequired sampleGas.GasSha256Word sampleGas.GasSha256Base (List.replicate 33 0) = 84 :=
  ⟨by decide,
    ((C2_gas_required_is_ceil sampleGas.GasSha256Word sampleGas.GasSha256Base
      (List.replicate 33 0)).2.2.2.2.2.1 (by decide)).1,
    by decide⟩

/-- C3: `RegisterNativeContract(addr, fn)` returns true exactly when `addr` was
not registered before the call. When it returns true the registry is the old
one with `addr` bound to `fn` and every other address as before; when it
returns false the registry is the old one, unchanged, so the function bound to
`addr` is not overwritten. -/
theorem C3_register_returns_true_iff_absent {W σ κ L : Type} [DecidableEq W]
    (reg : Registry W σ κ L) (addr : W) (fn : NativeContract σ κ L) :
    ((RegisterNativeContract reg addr fn).2 = true ↔
        IsRegisteredNativeContract reg addr = false) ∧
      ((RegisterNativeContract reg addr fn).2 = true →
        (RegisterNativeContract reg addr fn).1 addr = some fn ∧
        ∀ a, a ≠ addr → (RegisterNativeContract reg addr fn).1 a = reg a) ∧
      ((RegisterNativeContract reg addr fn).2 = false →
        (RegisterNativeContract reg addr fn).1 = reg ∧
        (RegisterNativeContract reg addr fn).1 addr = reg addr) := by
  unfold RegisterNativeContract IsRegisteredNativeContract
  cases h : reg addr with
  | none =>
    refine ⟨by simp, fun _ => ⟨by simp [Registry.insert], fun a ha => ?_⟩, by simp⟩
    simp [Registry.insert, ha]
  | some f => simp [h]

/-- C3 on the empty registry, and on the registry that first call leaves: the
second registration at address 2 is refused and the identity function stays. -/
theorem C3_register_returns_true_iff_absent_witness :
    (RegisterNativeContract (emptyRegistry Nat Unit Unit Unit) 2 (identityFunc sampleGas)).2
        = true ∧
      (RegisterNativeContract (emptyRegistry Nat Unit Unit Unit) 2 (identityFunc sampleGas)).1 2
        = some (identityFunc sampleGas) ∧
      (RegisterNativeContract
          (RegisterNativeContract (emptyRegistry Nat Unit Unit Unit) 2 (identityFunc sampleGas)).1
          2 (failingContract "x")).2 = false ∧
      (RegisterNativeContract
          (RegisterNativeContract (emptyRegistry Nat Unit Unit Unit) 2 (identityFunc sampleGas)).1
          2 (failingContract "x")).1
        = (RegisterNativeContract (emptyRegistry Nat Unit Unit Unit) 2
            (identityFunc sampleGas)).1 :=
  ⟨rfl,
    ((C3_register_returns_true_iff_absent (emptyRegistry Nat Unit Unit Unit) 2
      (identityFunc sampleGas)).2.1 rfl).1,
    rfl,
    ((C3_register_returns_true_iff_absent
      (RegisterNativeContract (emptyRegistry Nat Unit Unit Unit) 2 (identityFunc sampleGas)).1
      2 (failingContract "x")).2.2 rfl).1⟩

theorem registerAll_append {W σ κ L : Type} [DecidableEq W] (xs ys : List (W × NativeContract σ κ L))
    (reg : Registry W σ κ L) :
    registerAll reg (xs ++ ys)
      = ((registerAll (registerAll reg xs).1 ys).1,
          (registerAll reg xs).2 ++ (registerAll (registerAll reg xs).1 ys).2) := by
  induction xs generalizing reg with
  | nil => simp [registerAll]
  | cons c cs ih =>
    obtain ⟨a, f⟩ := c
    simp [registerAll, ih]

theorem registerAll_length {W σ κ L : Type} [DecidableEq W] (calls : List (W × NativeContract σ κ L))
    (reg : Registry W σ κ L) : (registerAll reg calls).2.length = calls.length := by
  induction calls generalizing reg with
  | nil => simp [registerAll]
  | cons c cs ih =>
    obtain ⟨a, f⟩ := c
    simp [registerAll, ih]

theorem register_other_absent {W σ κ L : Type} [DecidableEq W] (reg : Registry W σ κ L)
    (addr a : W) (f : NativeContract σ κ L) (h : reg addr = none) (ha : a ≠ addr) :
    (RegisterNativeContract reg a f).1 addr = none := by
  unfold RegisterNativeContract
  cases hr : reg a with
  | none => simp [Registry.insert, h, Ne.symm ha]
  | some g => simpa using h

theorem register_bound_stays {W σ κ L : Type} [DecidableEq W] (reg : Registry W σ κ L)
    (addr a : W) (fn f : NativeContract σ κ L) (h : reg addr = some fn) :
    (RegisterNativeContract reg a f).1 addr = some fn ∧
      (a = addr → (RegisterNativeContract reg a f).2 = false) := by
  unfold RegisterNativeContract
  cases hr : reg a with
  | none =>
    have hne : addr ≠ a := fun e => by rw [← e, h] at hr; cases hr
    exact ⟨by simp [Registry.insert, hne, h], fun e => absurd e.symm hne⟩
  | some g => exact ⟨by simpa using h, fun _ => rfl⟩

theorem registerAll_absent {W σ κ L : Type} [DecidableEq W] (addr : W)
    (pre : List (W × NativeContract σ κ L)) (reg : Registry W σ κ L) (h : reg addr = none)
    (hpre : ∀ c ∈ pre, c.1 ≠ addr) : (registerAll reg pre).1 addr = none := by
  induction pre generalizing reg with
  | nil => simpa [registerAll] using h
  | cons c cs ih =>
    obtain ⟨a, f⟩ := c
    have ha : a ≠ addr := hpre (a, f) (List.mem_cons_self _ _)
    simp only [registerAll]
    exact ih _ (register_other_absent reg addr a f h ha)
      (fun c hc => hpre c (List.mem_cons_of_mem _ hc))

theorem registerAll_bound {W σ κ L : Type} [DecidableEq W] (addr : W) (fn : NativeContract σ κ L)
    (calls : List (W × NativeContract σ κ L)) (reg : Registry W σ κ L) (h : reg addr = some fn) :
    (registerAll reg calls).1 addr = some fn ∧
      ∀ (i : Nat) (c : W × NativeContract σ κ L), calls[i]? = some c → c.1 = addr →
        (registerAll reg calls).2[i]? = some false := by
  induction calls generalizing reg with
  | nil => exact ⟨by simpa [registerAll] using h, fun i c hc => by simp at hc⟩
  | cons c cs ih =>
    obtain ⟨a, f⟩ := c
    have hstep := register_bound_stays reg addr a fn f h
    have hrest := ih _ hstep.1
    refine ⟨by simpa [registerAll] using hrest.1, fun i c hc hca => ?_⟩
    cases i with
    | zero =>
      simp only [List.getElem?_cons_zero, Option.some.injEq] at hc
      subst hc
      simpa [registerAll] using hstep.2 hca
    | succ j =>
      simp only [List.getElem?_cons_succ] at hc
      simpa [registerAll] using hrest.2 j c hc hca

/-- C4: registration is idempotent over call sequences. Take any registry in
which `addr` is absent and any finite sequence of `RegisterNativeContract`
calls whose first call for `addr` supplies `fn` (before it come calls for
other addresses only, after it come arbitrary calls). Then the run returns one
boolean per call, the first call for `addr` returns true, every later call for
`addr` returns false, and after that first call and after every further call
of the sequence `addr` is registered and bound to `fn`. -/
theorem C4_registration_idempotent {W σ κ L : Type} [DecidableEq W]
    (reg : Registry W σ κ L) (addr : W) (fn : NativeContract σ κ L)
    (pre rest : List (W × NativeContract σ κ L))
    (habsent : IsRegisteredNativeContract reg addr = false)
    (hpre : ∀ c ∈ pre, c.1 ≠ addr) :
    (registerAll reg (pre ++ (addr, fn) :: rest)).2.length
        = (pre ++ (addr, fn) :: rest).length ∧
      (registerAll reg (pre ++ (addr, fn) :: rest)).2[pre.length]? = some true ∧
      (∀ (i : Nat) (c : W × NativeContract σ κ L), pre.length < i →
        (pre ++ (addr, fn) :: rest)[i]? = some c → c.1 = addr →
        (registerAll reg (pre ++ (addr, fn) :: rest)).2[i]? = some false) ∧
      (∀ k, (registerAll reg (pre ++ (addr, fn) :: rest.take k)).1 addr = some fn ∧
        IsRegisteredNativeContract (registerAll reg (pre ++ (addr, fn) :: rest.take k)).1 addr
          = true) := by
  have hnone : reg addr = none := by
    unfold IsRegisteredNativeContract at habsent
    cases h : reg addr with
    | none => rfl
    | some f => simp [h] at habsent
  have hpreNone := registerAll_absent addr pre reg hnone hpre
  have hplen := registerAll_length pre reg
  have hstep : RegisterNativeContract (registerAll reg pre).1 addr fn
      = ((registerAll reg pre).1.insert addr fn, true) := by
    unfold RegisterNativeContract
    rw [hpreNone]
  have hbound : ((registerAll reg pre).1.insert addr fn) addr = some fn := by
    simp [Registry.insert]
  have hrun : ∀ tail : List (W × NativeContract σ κ L),
      registerAll reg (pre ++ (addr, fn) :: tail)
        = ((registerAll ((registerAll reg pre).1.insert addr fn) tail).1,
            (registerAll reg pre).2 ++
              true :: (registerAll ((registerAll reg pre).1.insert addr fn) tail).2) := by
    intro tail
    rw [registerAll_append]
    simp only [registerAll, hstep]
  refine ⟨registerAll_length _ _, ?_, ?_, ?_⟩
  · rw [hrun, ← hplen, List.getElem?_append_right (le_refl _)]
    simp
  · intro i c hi hc hca
    rw [hrun]
    obtain ⟨j, rfl⟩ : ∃ j, i = pre.length + 1 + j := ⟨i - (pre.length + 1), by omega⟩
    have hc2 : rest[j]? = some c := by
      rw [List.getElem?_append_right (by omega)] at hc
      have hidx : pre.length + 1 + j - pre.length = j + 1 := by omega
      rw [hidx] at hc
      simpa using hc
    have hres := (registerAll_bound addr fn rest _ hbound).2 j c hc2 hca
    rw [List.getElem?_append_right (by omega)]
    have hidx : pre.length + 1 + j - (registerAll reg pre).2.length = j + 1 := by omega
    rw [hidx]
    simpa using hres
  · intro k
    rw [hrun]
    have hb := (registerAll_bound addr fn (rest.take k) _ hbound).1
    exact ⟨hb, by simp [IsRegisteredNativeContract, hb]⟩

/-- C4 on the empty registry: address 3, then address 2 with the identity
function, then address 2 again with another function, then address 4. -/
theorem C4_registration_idempotent_witness :
    IsRegisteredNativeContract (emptyRegistry Nat Unit Unit Unit) 2 = false ∧
      (registerAll (emptyRegistry Nat Unit Unit Unit)
        ([(3, failingContract "a")] ++ (2, identityFunc sampleGas) ::
          [(2, failingContract "b"), (4, failingContract "c")])).2
        = [true, true, false, true] ∧
      (registerAll (emptyRegistry Nat Unit Unit Unit)
        ([(3, failingContract "a")] ++ (2, identityFunc sampleGas) ::
          [(2, failingContract "b"), (4, failingContract "c")])).2[2]? = some false ∧
      (registerAll (emptyRegistry Nat Unit Unit Unit)
        ([(3, failingContract "a")] ++ (2, identityFunc sampleGas) ::
          [(2, failingContract "b"), (4, failingContract "c")].take 2)).1 2
        = some (identityFunc sampleGas) :=
  ⟨rfl, rfl,
    (C4_registration_idempotent (emptyRegistry Nat Unit Unit Unit) 2 (identityFunc sampleGas)
      [(3, failingContract "a")] [(2, failingContract "b"), (4, failingContract "c")] rfl
      (by decide)).2.2.1 2 (2, failingContract "b") (by decide) rfl rfl,
    ((C4_registration_idempotent (emptyRegistry Nat Unit Unit Unit) 2 (identityFunc sampleGas)
      [(3, failingContract "a")] [(2, failingContract "b"), (4, failingContract "c")] rfl
      (by decide)).2.2.2 2).1⟩

theorem lookupText_ne_empty (t : String) :
    "no native contract registered at address: " ++ t ≠ "" := by
  intro h
  have hlen := congrArg String.length h
  rw [String.length_append] at hlen
  have hpos : 0 < "no native contract registered at address: ".length := by decide
  have hzero : "".length = 0 := rfl
  omega

theorem errorCodef_eq {W : Type} (T : Texts W) (c : Code) (address : W) :
    ErrorCodef T c address
      = .exception c ("no native contract registered at address: " ++ T.address address) := by
  unfold ErrorCodef NewCodedError
  rw [if_neg (lookupText_ne_empty _)]

theorem newCodedError_of_ne_empty (c : Code) (message : String) (h : message ≠ "") :
    NewCodedError c message = .exception c message := by
  unfold NewCodedError
  rw [if_neg h]

theorem execute_registered {W σ κ L : Type} (T : Texts W) (reg : Registry W σ κ L)
    (address : W) (f : NativeContract σ κ L) (state : σ) (caller : κ) (input : Bytes)
    (gas : Nat) (logger : L) (hf : reg address = some f) :
    ((f state caller input gas logger).err = none →
        ExecuteNativeContract T reg address state caller input gas logger
          = { output := (f state caller input gas logger).output, err := none,
              gas := (f state caller input gas logger).gas,
              state := (f state caller input gas logger).state }) ∧
      (∀ e, (f state caller input gas logger).err = some e →
        ExecuteNativeContract T reg address state caller input gas logger
          = { output := [],
              err := some (NewCodedError .ErrorCodeNativeFunction (e.Error T)),
              gas := (f state caller input gas logger).gas,
              state := (f state caller input gas logger).state }) := by
  refine ⟨fun he => ?_, fun e he => ?_⟩
  · simp [ExecuteNativeContract, hf, he]
  · simp [ExecuteNativeContract, hf, he]

/-- C5, the claim as stated fails in its converse: at address 7 a contract is
registered that spends no gas and fails with the very text of the lookup
failure for address 7; the dispatcher then returns exactly what it returns for
an unregistered address 7 (nil output, the same coded error, gas and state
untouched), although the address is registered. -/
theorem C5_counterexample :
    ¬ (ExecuteNativeContract sampleTexts
          ((emptyRegistry Nat Unit Unit Unit).insert 7
            (forgingContract "no native contract registered at address: 7"))
          7 () () [1, 2] 50 ()
        = { output := [],
            err := some (.exception .ErrorCodeNativeFunction
              ("no native contract registered at address: " ++ sampleTexts.address 7)),
            gas := 50, state := () } →
      IsRegisteredNativeContract
          ((emptyRegistry Nat Unit Unit Unit).insert 7
            (forgingContract "no native contract registered at address: 7")) 7 = false) :=
  fun h => absurd (h (by rfl)) (by decide)

/-- C5, amended: on an address for which `IsRegisteredNativeContract` is false,
`ExecuteNativeContract` returns nil output and a coded error of code
`ErrorCodeNativeFunction` naming the address, for every state, caller, input
and gas value; the gas counter and the state are as they were, and the result
is this fixed record whatever the registry holds elsewhere, so no native
function ran. Conversely, on a registered address the dispatcher returns an
error exactly when the bound contract returned one, and that error is the
contract's error wrapped by `NewCodedError` under `ErrorCodeNativeFunction`. -/
theorem C5_unregistered_address_fails {W σ κ L : Type} (T : Texts W)
    (reg : Registry W σ κ L) (address : W) (state : σ) (caller : κ) (input : Bytes)
    (gas : Nat) (logger : L) :
    (IsRegisteredNativeContract reg address = false →
        ExecuteNativeContract T reg address state caller input gas logger
          = { output := [],
              err := some (.exception .ErrorCodeNativeFunction
                ("no native contract registered at address: " ++ T.address address)),
              gas := gas, state := state }) ∧
      (IsRegisteredNativeContract reg address = true →
        ∃ contract, reg address = some contract ∧
          (ExecuteNativeContract T reg address state caller input gas logger).err
            = (contract state caller input gas logger).err.map
                (fun e => NewCodedError .ErrorCodeNativeFunction (e.Error T)) ∧
          ((ExecuteNativeContract T reg address state caller input gas logger).err = none ↔
            (contract state caller input gas logger).err = none)) := by
  cases h : reg address with
  | none =>
    refine ⟨fun _ => ?_, fun hreg => ?_⟩
    · unfold ExecuteNativeContract
      rw [h, errorCodef_eq]
    · unfold IsRegisteredNativeContract at hreg
      rw [h] at hreg
      cases hreg
  | some contract =>
    refine ⟨fun hreg => ?_, fun _ => ⟨contract, rfl, ?_⟩⟩
    · unfold IsRegisteredNativeContract at hreg
      rw [h] at hreg
      cases hreg
    · have hx := execute_registered T reg address contract state caller input gas logger h
      cases he : (contract state caller input gas logger).err with
      | none =>
        rw [hx.1 he]
        exact ⟨rfl, ⟨fun _ => rfl, fun _ => rfl⟩⟩
      | some e =>
        rw [hx.2 e he]
        exact ⟨rfl, by simp⟩

/-- C5 amended, on the empty registry, and on a registry whose contract at
address 7 fails by itself. -/
theorem C5_unregistered_address_fails_witness :
    IsRegisteredNativeContract (emptyRegistry Nat Unit Unit Unit) 7 = false ∧
      ExecuteNativeContract sampleTexts (emptyRegistry Nat Unit Unit Unit) 7 () () [1, 2] 50 ()
        = { output := [],
            err := some (.exception .ErrorCodeNativeFunction
              "no native contract registered at address: 7"),
            gas := 50, state := () } ∧
      IsRegisteredNativeContract
          ((emptyRegistry Nat Unit Unit Unit).insert 7 (failingContract "boom")) 7 = true ∧
      (∃ contract, (emptyRegistry Nat Unit Unit Unit).insert 7 (failingContract "boom") 7
          = some contract ∧
        (ExecuteNativeContract sampleTexts
            ((emptyRegistry Nat Unit Unit Unit).insert 7 (failingContract "boom")) 7 () ()
            [1, 2] 50 ()).err
          = (contract () () [1, 2] 50 ()).err.map
              (fun e => NewCodedError .ErrorCodeNativeFunction (e.Error sampleTexts)) ∧
        ((ExecuteNativeContract sampleTexts
            ((emptyRegistry Nat Unit Unit Unit).insert 7 (failingContract "boom")) 7 () ()
            [1, 2] 50 ()).err = none ↔
          (contract () () [1, 2] 50 ()).err = none)) :=
  ⟨rfl,
    (C5_unregistered_address_fails sampleTexts (emptyRegistry Nat Unit Unit Unit) 7 () ()
      [1, 2] 50 ()).1 rfl,
    rfl,
    (C5_unregistered_address_fails sampleTexts
      ((emptyRegistry Nat Unit Unit Unit).insert 7 (failingContract "boom")) 7 () ()
      [1, 2] 50 ()).2 rfl⟩

/-- C6, the claim as stated fails: at address 7 a contract is registered that
fails with an error whose message is empty; the dispatcher returns the nil
exception, which is not a coded error of code `ErrorCodeNativeFunction`
carrying that message. -/
theorem C6_counterexample :
    ¬ (∀ e, (failingContract "" () () [1, 2] 50 ()).err = some e →
        (ExecuteNativeContract sampleTexts
            ((emptyRegistry Nat Unit Unit Unit).insert 7 (failingContract "")) 7 () ()
            [1, 2] 50 ()).err
          = some (.exception .ErrorCodeNativeFunction (e.Error sampleTexts))) :=
  fun h => absurd (h (.text "") rfl) (by decide)

/-- C6, amended: on a registered address bound to `f`, `ExecuteNativeContract`
returns exactly the output of `f` and no error when `f` succeeds; when `f`
returns an error `e` it returns nil output and the value
`NewCodedError(ErrorCodeNativeFunction, e.Error())`, which is a coded error of
code `ErrorCodeNativeFunction` carrying the message of `e` whenever that
message is not empty. The gas counter and the state after the dispatch are
those `f` left (nothing is refunded). So when `f` is `sha256Func`,
`ripemd160Func` or `identityFunc`, the gas is below the required amount and the
text of the insufficient-gas code is not empty, the caller sees code
`ErrorCodeNativeFunction`, not `ErrorCodeInsufficientGas`, with that text, and
the gas counter still holds its initial value. -/
theorem C6_dispatch_wraps_contract_result {W σ κ L : Type} (T : Texts W)
    (reg : Registry W σ κ L) (address : W) (f : NativeContract σ κ L) (state : σ)
    (caller : κ) (input : Bytes) (gas : Nat) (logger : L) (hf : reg address = some f) :
    ((f state caller input gas logger).err = none →
        (ExecuteNativeContract T reg address state caller input gas logger).output
          = (f state caller input gas logger).output ∧
        (ExecuteNativeContract T reg address state caller input gas logger).err = none) ∧
      (∀ e, (f state caller input gas logger).err = some e →
        (ExecuteNativeContract T reg address state caller input gas logger).output = [] ∧
        (ExecuteNativeContract T reg address state caller input gas logger).err
          = some (NewCodedError .ErrorCodeNativeFunction (e.Error T))) ∧
      (∀ e, (f state caller input gas logger).err = some e → e.Error T ≠ "" →
        (ExecuteNativeContract T reg address state caller input gas logger).output = [] ∧
        (ExecuteNativeContract T reg address state caller input gas logger).err
          = some (.exception .ErrorCodeNativeFunction (e.Error T))) ∧
      (ExecuteNativeContract T reg address state caller input gas logger).gas
        = (f state caller input gas logger).gas ∧
      (ExecuteNativeContract T reg address state caller input gas logger).state
        = (f state caller input gas logger).state ∧
      (∀ (G : GasConstants) (H : Hashers),
        T.codeError .ErrorCodeInsufficientGas ≠ "" →
        (f = sha256Func G H ∧ gas < gasRequired G.GasSha256Word G.GasSha256Base input) ∨
          (f = ripemd160Func G H ∧
            gas < gasRequired G.GasRipemd160Word G.GasRipemd160Base input) ∨
          (f = identityFunc G ∧ gas < gasRequired G.GasIdentityWord G.GasIdentityBase input) →
        (ExecuteNativeContract T reg address state caller input gas logger).err
          = some (.exception .ErrorCodeNativeFunction
              (T.codeError .ErrorCodeInsufficientGas)) ∧
        (∀ message,
          (ExecuteNativeContract T reg address state caller input gas logger).err
            ≠ some (.exception .ErrorCodeInsufficientGas message)) ∧
        (ExecuteNativeContract T reg address state caller input gas logger).output = [] ∧
        (ExecuteNativeContract T reg address state caller input gas logger).gas = gas) := by
  have hx := execute_registered T reg address f state caller input gas logger hf
  have hwrap : ∀ e, (f state caller input gas logger).err = some e →
      (ExecuteNativeContract T reg address state caller input gas logger).output = [] ∧
      (ExecuteNativeContract T reg address state caller input gas logger).err
        = some (NewCodedError .ErrorCodeNativeFunction (e.Error T)) := by
    intro e he
    rw [hx.2 e he]
    exact ⟨rfl, rfl⟩
  have hgas : (ExecuteNativeContract T reg address state caller input gas logger).gas
      = (f state caller input gas logger).gas := by
    cases he : (f state caller input gas logger).err with
    | none => rw [hx.1 he]
    | some e => rw [hx.2 e he]
  have hstate : (ExecuteNativeContract T reg address state caller input gas logger).state
      = (f state caller input gas logger).state := by
    cases he : (f state caller input gas logger).err with
    | none => rw [hx.1 he]
    | some e => rw [hx.2 e he]
  refine ⟨fun he => ?_, hwrap, fun e he hne => ?_, hgas, hstate, ?_⟩
  · rw [hx.1 he]
    exact ⟨rfl, rfl⟩
  · have hw := hwrap e he
    rw [newCodedError_of_ne_empty _ _ hne] at hw
    exact hw
  · intro G H htext hcase
    have hfail : (f state caller input gas logger).err
          = some (.code .ErrorCodeInsufficientGas) ∧
        (f state caller input gas logger).gas = gas := by
      rcases hcase with ⟨rfl, hlt⟩ | ⟨rfl, hlt⟩ | ⟨rfl, hlt⟩
      · simp [sha256Func, hlt]
      · simp [ripemd160Func, hlt]
      · simp [identityFunc, hlt]
    have hw := hwrap _ hfail.1
    have herr : (ExecuteNativeContract T reg address state caller input gas logger).err
        = some (.exception .ErrorCodeNativeFunction
            (T.codeError .ErrorCodeInsufficientGas)) := by
      rw [hw.2]
      exact congrArg some (newCodedError_of_ne_empty _ _ htext)
    refine ⟨herr, fun message hm => ?_, hw.1, hgas.trans hfail.2⟩
    rw [herr] at hm
    cases hm

/-- C6 amended, at address 2 bound to `sha256Func`, called with 71 units of
gas where 72 are required, and at address 7 bound to a contract that spends
one unit and then fails. -/
theorem C6_dispatch_wraps_contract_result_witness :
    (emptyRegistry Nat Unit Unit Unit).insert 2 (sha256Func sampleGas sampleHashers) 2
        = some (sha256Func sampleGas sampleHashers) ∧
      sampleTexts.codeError .ErrorCodeInsufficientGas ≠ "" ∧
      71 < gasRequired sampleGas.GasSha256Word sampleGas.GasSha256Base [1, 2, 3] ∧
      (ExecuteNativeContract sampleTexts
          ((emptyRegistry Nat Unit Unit Unit).insert 2 (sha256Func sampleGas sampleHashers))
          2 () () [1, 2, 3] 71 ()).err
        = some (.exception .ErrorCodeNativeFunction
            (sampleTexts.codeError .ErrorCodeInsufficientGas)) ∧
      (ExecuteNativeContract sampleTexts
          ((emptyRegistry Nat Unit Unit Unit).insert 7 (failingContract "boom"))
          7 () () [1, 2] 50 ()).err
        = some (.exception .ErrorCodeNativeFunction "boom") ∧
      (ExecuteNativeContract sampleTexts
          ((emptyRegistry Nat Unit Unit Unit).insert 7 (failingContract "boom"))
          7 () () [1, 2] 50 ()).gas = 49 :=
  ⟨rfl, by decide, by decide,
    ((C6_dispatch_wraps_contract_result sampleTexts
      ((emptyRegistry Nat Unit Unit Unit).insert 2 (sha256Func sampleGas sampleHashers))
      2 (sha256Func sampleGas sampleHashers) () () [1, 2, 3] 71 () rfl).2.2.2.2.2
        sampleGas sampleHashers (by decide) (Or.inl ⟨rfl, by decide⟩)).1,
    ((C6_dispatch_wraps_contract_result sampleTexts
      ((emptyRegistry Nat Unit Unit Unit).insert 7 (failingContract "boom"))
      7 (failingContract "boom") () () [1, 2] 50 () rfl).2.2.1 (.text "boom") rfl
        (by decide)).2,
    (C6_dispatch_wraps_contract_result sampleTexts
      ((emptyRegistry Nat Unit Unit Unit).insert 7 (failingContract "boom"))
      7 (failingContract "boom") () () [1, 2] 50 () rfl).2.2.2.1⟩

theorem isValid_iff_length (p : PublicKey) :
    p.IsValid = true ↔
      PublicKeyLength p.CurveType ≠ 0 ∧ p.Key.length = PublicKeyLength p.CurveType := by
  unfold PublicKey.IsValid
  simp only [Bool.and_eq_true, bne_iff_ne, beq_iff_eq]
  exact ⟨fun h => ⟨h.1, h.2.symm⟩, fun h => ⟨h.1, h.2.symm⟩⟩

theorem publicKeyLength_ne_zero_iff (c : CurveType) :
    PublicKeyLength c ≠ 0 ↔ c = .CurveTypeEd25519 ∨ c = .CurveTypeSecp256k1 := by
  cases c with
  | CurveTypeUnset => exact ⟨fun h => absurd rfl h, fun h => by rcases h with h | h <;> cases h⟩
  | CurveTypeEd25519 => exact ⟨fun _ => Or.inl rfl, fun _ => by decide⟩
  | CurveTypeSecp256k1 => exact ⟨fun _ => Or.inr rfl, fun _ => by decide⟩
  | unknown n => exact ⟨fun h => absurd rfl h, fun h => by rcases h with h | h <;> cases h⟩

/-- C7, the claim as stated fails: a key of an unknown curve with no key bytes
is not Unset and its length, 0, equals `PublicKeyLength` of its curve, yet
`IsValid` is false. -/
theorem C7_counterexample :
    ¬ (PublicKey.IsValid { CurveType := .unknown 3, Key := [] } = true ↔
        (({ CurveType := .unknown 3, Key := [] } : PublicKey).CurveType ≠ .CurveTypeUnset ∧
          ({ CurveType := .unknown 3, Key := [] } : PublicKey).Key.length
            = PublicKeyLength ({ CurveType := .unknown 3, Key := [] } : PublicKey).CurveType)) := by
  decide

/-- C7, amended: for every `PublicKey` value `p` (any curve, any bytes),
`p.IsValid()` is true iff `PublicKeyLength(p.CurveType)` is not 0, that is the
curve is Ed25519 or Secp256k1, and `len(p.Key) == PublicKeyLength(p.CurveType)`;
it is false for Unset, for every curve without a key length, and for any
length mismatch. -/
theorem C7_isValid_iff (p : PublicKey) :
    (p.IsValid = true ↔
        PublicKeyLength p.CurveType ≠ 0 ∧ p.Key.length = PublicKeyLength p.CurveType) ∧
      (p.IsValid = true ↔
        (p.CurveType = .CurveTypeEd25519 ∨ p.CurveType = .CurveTypeSecp256k1) ∧
          p.Key.length = PublicKeyLength p.CurveType) ∧
      (p.CurveType = .CurveTypeUnset → p.IsValid = false) ∧
      (PublicKeyLength p.CurveType = 0 → p.IsValid = false) ∧
      (p.Key.length ≠ PublicKeyLength p.CurveType → p.IsValid = false) := by
  have hiff := isValid_iff_length p
  refine ⟨hiff, ?_, ?_, ?_, ?_⟩
  · rw [hiff, publicKeyLength_ne_zero_iff]
  · intro hc
    have h0 : PublicKeyLength p.CurveType = 0 := by rw [hc]; rfl
    cases hv : p.IsValid with
    | false => rfl
    | true => exact absurd h0 (hiff.mp hv).1
  · intro h0
    cases hv : p.IsValid with
    | false => rfl
    | true => exact absurd h0 (hiff.mp hv).1
  · intro hne
    cases hv : p.IsValid with
    | false => rfl
    | true => exact absurd (hiff.mp hv).2 hne

/-- C7 amended, at a 32-byte Ed25519 key (valid) and at an Ed25519 key of two
bytes (invalid). -/
theorem C7_isValid_iff_witness :
    sampleEd25519Key.IsValid = true ∧
      PublicKey.IsValid { CurveType := .CurveTypeEd25519, Key := [1, 2] } = false :=
  ⟨(C7_isValid_iff sampleEd25519Key).1.2 ⟨by decide, by decide⟩,
    (C7_isValid_iff { CurveType := .CurveTypeEd25519, Key := [1, 2] }).2.2.2.2 (by decide)⟩

theorem copy_replicate (n : Nat) (key : Bytes) :
    copy (List.replicate n 0) key = key.take n ++ List.replicate (n - key.length) 0 := by
  simp [copy]

theorem encode_eq (M : CurveTypeMethods) (p : PublicKey) :
    p.Encode M = M.Byte p.CurveType ::
      (p.Key.take (PublicKeyLength p.CurveType) ++
        List.replicate (PublicKeyLength p.CurveType - p.Key.length) 0) := by
  simp [PublicKey.Encode, List.replicate_succ, copy_replicate]

theorem encode_valid (M : CurveTypeMethods) (p : PublicKey) (hp : p.IsValid = true) :
    p.Encode M = M.Byte p.CurveType :: p.Key := by
  have hlen := ((isValid_iff_length p).mp hp).2
  rw [encode_eq, ← hlen]
  simp

/-- C8: for every `PublicKey` `p`, valid or not, `p.Encode()` has length
`1 + PublicKeyLength(p.CurveType)`, its first byte is `p.CurveType.Byte()`, and
the bytes after it are the first `PublicKeyLength(p.CurveType)` bytes of
`p.Key`, padded on the right with zero bytes if the key is shorter; for a valid
key it is the tag byte followed by the key bytes. -/
theorem C8_encode_layout (M : CurveTypeMethods) (p : PublicKey) :
    (p.Encode M).length = 1 + PublicKeyLength p.CurveType ∧
      (p.Encode M)[0]? = some (M.Byte p.CurveType) ∧
      (p.Encode M).drop 1 =
        p.Key.take (PublicKeyLength p.CurveType) ++
          List.replicate (PublicKeyLength p.CurveType - p.Key.length) 0 ∧
      (p.IsValid = true → p.Encode M = M.Byte p.CurveType :: p.Key) := by
  refine ⟨?_, ?_, ?_, ?_⟩
  · simp [PublicKey.Encode, copy]
    omega
  · rw [encode_eq, List.getElem?_cons_zero]
  · rw [encode_eq, List.drop_one, List.tail_cons]
  · exact encode_valid M p

/-- C8 at a valid Secp256k1 key and at an Ed25519 key of three bytes, which is
padded to 32. -/
theorem C8_encode_layout_witness :
    sampleSecp256k1Key.IsValid = true ∧
      sampleSecp256k1Key.Encode sampleCurveTypeMethods = 2 :: sampleSecp256k1Key.Key ∧
      (PublicKey.Encode sampleCurveTypeMethods
          { CurveType := .CurveTypeEd25519, Key := [5, 6, 7] }).drop 1
        = [5, 6, 7] ++ List.replicate 29 0 :=
  ⟨by decide, (C8_encode_layout sampleCurveTypeMethods sampleSecp256k1Key).2.2.2 (by decide),
    (C8_encode_layout sampleCurveTypeMethods
      { CurveType := .CurveTypeEd25519, Key := [5, 6, 7] }).2.2.1⟩

/-- C9: binary round trip. For every valid public key `pk`, decoding
`Encode(pk)` gives back `pk`, where the decoder reads the tag byte, infers the
key length from it and takes that many following bytes (the two curves with
keys having different wire tags); and `Encode` is injective on valid keys, which
needs nothing of the wire tags. -/
theorem C9_binary_round_trip (M : CurveTypeMethods) (p q : PublicKey)
    (hp : p.IsValid = true) (hq : q.IsValid = true) :
    (M.Byte .CurveTypeEd25519 ≠ M.Byte .CurveTypeSecp256k1 →
        decode M (p.Encode M) = some p) ∧
      (p.Encode M = q.Encode M → p = q) := by
  have hpv := (isValid_iff_length p).mp hp
  have hqv := (isValid_iff_length q).mp hq
  have hpc := (publicKeyLength_ne_zero_iff p.CurveType).mp hpv.1
  have hqc := (publicKeyLength_ne_zero_iff q.CurveType).mp hqv.1
  rw [encode_valid M p hp, encode_valid M q hq]
  obtain ⟨pc, pkey⟩ := p
  obtain ⟨qc, qkey⟩ := q
  simp only at hpv hqv hpc hqc ⊢
  refine ⟨fun htag => ?_, fun heq => ?_⟩
  · rcases hpc with rfl | rfl
    · simp [decode, hpv.2, PublicKeyLength]
    · have hne : (M.Byte .CurveTypeEd25519 == M.Byte .CurveTypeSecp256k1) = false := by
        simpa using htag
      simp [decode, hpv.2, hne, List.find?]
  · have hkey : pkey = qkey := (List.cons.inj heq).2
    have hlen : PublicKeyLength pc = PublicKeyLength qc := by
      rw [← hpv.2, ← hqv.2, hkey]
    have hc : pc = qc := by
      rcases hpc with rfl | rfl <;> rcases hqc with rfl | rfl <;>
        first | rfl | exact absurd hlen (by decide)
    rw [hc, hkey]

/-- C9 at a valid Secp256k1 key with the sample wire tags. -/
theorem C9_binary_round_trip_witness :
    sampleSecp256k1Key.IsValid = true ∧ sampleEd25519Key.IsValid = true ∧
      sampleCurveTypeMethods.Byte .CurveTypeEd25519
        ≠ sampleCurveTypeMethods.Byte .CurveTypeSecp256k1 ∧
      decode sampleCurveTypeMethods (sampleSecp256k1Key.Encode sampleCurveTypeMethods)
        = some sampleSecp256k1Key :=
  ⟨by decide, by decide, by decide,
    (C9_binary_round_trip sampleCurveTypeMethods sampleSecp256k1Key sampleEd25519Key
      (by decide) (by decide)).1 (by decide)⟩

theorem fromHexChar_hexDigitUpper :
    ∀ n : Fin 16, fromHexChar (hexDigitUpper n.val) = some n.val := by
  decide

theorem hexDigitUpper_mem :
    ∀ n : Fin 16, hexDigitUpper n.val ∈ "0123456789ABCDEF".data := by
  decide

theorem byte_of_halves (b : UInt8) : UInt8.ofNat (16 * (b.toNat / 16) + b.toNat % 16) = b := by
  rw [Nat.div_add_mod]
  apply UInt8.toNat.inj
  exact UInt8.toNat_ofNat_of_lt (UInt8.toNat_lt b)

theorem decodeHexChars_encode (bs : Bytes) :
    decodeHexChars (bs.flatMap fun b => [hexDigitUpper (b.toNat / 16), hexDigitUpper (b.toNat % 16)])
      = .ok bs := by
  induction bs with
  | nil => rfl
  | cons b rest ih =>
    have hlt : b.toNat < 256 := UInt8.toNat_lt b
    have hhi := fromHexChar_hexDigitUpper ⟨b.toNat / 16, by omega⟩
    have hlo := fromHexChar_hexDigitUpper ⟨b.toNat % 16, by omega⟩
    simp only at hhi hlo
    show decodeHexChars (hexDigitUpper (b.toNat / 16) :: hexDigitUpper (b.toNat % 16) ::
      (rest.flatMap fun b => [hexDigitUpper (b.toNat / 16), hexDigitUpper (b.toNat % 16)])) = _
    simp only [decodeHexChars, hhi, hlo, ih, byte_of_halves]

theorem hexDigitUpper_utf8Size :
    ∀ n : Fin 16, (hexDigitUpper n.val).utf8Size = 1 := by
  decide

theorem encodeUpper_utf8ByteSize (bs : Bytes) :
    (EncodeUpperToString bs).utf8ByteSize = 2 * bs.length := by
  induction bs with
  | nil => rfl
  | cons b rest ih =>
    have hlt : b.toNat < 256 := UInt8.toNat_lt b
    have hhi := hexDigitUpper_utf8Size ⟨b.toNat / 16, by omega⟩
    have hlo := hexDigitUpper_utf8Size ⟨b.toNat % 16, by omega⟩
    simp only at hhi hlo
    have hstep : (EncodeUpperToString (b :: rest)).utf8ByteSize
        = (EncodeUpperToString rest).utf8ByteSize
            + (hexDigitUpper (b.toNat % 16)).utf8Size
            + (hexDigitUpper (b.toNat / 16)).utf8Size := rfl
    rw [hstep, ih, hhi, hlo, List.length_cons]
    omega

theorem decodeString_encodeUpper (bs : Bytes) :
    DecodeString (EncodeUpperToString bs) = .ok bs := by
  unfold DecodeString
  have heven : ¬ (EncodeUpperToString bs).utf8ByteSize % 2 ≠ 0 := by
    rw [encodeUpper_utf8ByteSize]
    omega
  rw [if_neg heven]
  exact decodeHexChars_encode bs

theorem encodeUpper_chars (bs : Bytes) :
    (EncodeUpperToString bs).length = 2 * bs.length ∧
      ∀ ch ∈ (EncodeUpperToString bs).data, ch ∈ "0123456789ABCDEF".data := by
  induction bs with
  | nil => exact ⟨rfl, fun ch h => by simp [EncodeUpperToString] at h⟩
  | cons b rest ih =>
    have hlt : b.toNat < 256 := UInt8.toNat_lt b
    have hhi := hexDigitUpper_mem ⟨b.toNat / 16, by omega⟩
    have hlo := hexDigitUpper_mem ⟨b.toNat % 16, by omega⟩
    obtain ⟨ihlen, ihmem⟩ := ih
    simp only [EncodeUpperToString, String.length] at ihlen ihmem ⊢
    refine ⟨?_, fun ch h => ?_⟩
    · show (hexDigitUpper (b.toNat / 16) :: hexDigitUpper (b.toNat % 16) ::
        (rest.flatMap fun b =>
          [hexDigitUpper (b.toNat / 16), hexDigitUpper (b.toNat % 16)])).length = _
      simp only [List.length_cons, ihlen]
      omega
    · have h2 : ch ∈ hexDigitUpper (b.toNat / 16) :: hexDigitUpper (b.toNat % 16) ::
          (rest.flatMap fun b =>
            [hexDigitUpper (b.toNat / 16), hexDigitUpper (b.toNat % 16)]) := h
      simp only [List.mem_cons] at h2
      rcases h2 with rfl | rfl | h
      · exact hhi
      · exact hlo
      · exact ihmem ch h

/-- C10: JSON round trip. For every valid public key `pk`, `MarshalJSON`
returns no error and `UnmarshalJSON` applied to its output, on any receiver,
returns no error and leaves the receiver equal to `pk`; the struct that is
marshalled holds the name of the curve and the hexadecimal text of the key
bytes, two upper-case digits per byte; the same holds for `MarshalText` and
`UnmarshalText`. The name of a curve with a key length is read back by
`CurveTypeFromString`, and the JSON library marshals this struct and reads it
back. -/
theorem C10_json_round_trip (M : CurveTypeMethods) (J : JSONCodec) (p receiver : PublicKey)
    (hp : p.IsValid = true)
    (hname : ∀ c, PublicKeyLength c ≠ 0 → M.CurveTypeFromString (M.String c) = .ok c)
    (hmarshal : (J.Marshal (p.jStruct M)).2 = none)
    (hjson : J.Unmarshal (J.Marshal (p.jStruct M)).1 = .ok (p.jStruct M)) :
    (p.MarshalJSON M J).2 = none ∧
      receiver.UnmarshalJSON M J (p.MarshalJSON M J).1 = (p, none) ∧
      (p.MarshalText M J).2 = none ∧
      receiver.UnmarshalText M J (p.MarshalText M J).1 = (p, none) ∧
      p.MarshalJSON M J
        = J.Marshal
            { CurveType := M.String p.CurveType, PublicKey := EncodeUpperToString p.Key } ∧
      (EncodeUpperToString p.Key).length = 2 * p.Key.length ∧
      (∀ ch ∈ (EncodeUpperToString p.Key).data, ch ∈ "0123456789ABCDEF".data) ∧
      DecodeString (EncodeUpperToString p.Key) = .ok p.Key := by
  have hcurve := hname p.CurveType ((isValid_iff_length p).mp hp).1
  have hround : receiver.UnmarshalJSON M J (p.MarshalJSON M J).1 = (p, none) := by
    unfold PublicKey.UnmarshalJSON PublicKey.MarshalJSON
    rw [hjson]
    simp only [PublicKey.jStruct, hcurve, decodeString_encodeUpper]
  exact ⟨hmarshal, hround, hmarshal, hround, rfl, (encodeUpper_chars p.Key).1,
    (encodeUpper_chars p.Key).2, decodeString_encodeUpper p.Key⟩

/-- C10 at a valid Ed25519 key, with the sample names and the stand-in JSON
codec, decoded into an unset receiver. -/
theorem C10_json_round_trip_witness :
    sampleEd25519Key.IsValid = true ∧
      (sampleJSON.Marshal (sampleEd25519Key.jStruct sampleCurveTypeMethods)).2 = none ∧
      sampleJSON.Unmarshal (sampleJSON.Marshal (sampleEd25519Key.jStruct sampleCurveTypeMethods)).1
        = .ok (sampleEd25519Key.jStruct sampleCurveTypeMethods) ∧
      PublicKey.UnmarshalJSON sampleCurveTypeMethods sampleJSON
          { CurveType := .CurveTypeUnset, Key := [] }
          (sampleEd25519Key.MarshalJSON sampleCurveTypeMethods sampleJSON).1
        = (sampleEd25519Key, none) :=
  ⟨by decide, rfl, by rfl,
    (C10_json_round_trip sampleCurveTypeMethods sampleJSON sampleEd25519Key
      { CurveType := .CurveTypeUnset, Key := [] } (by decide)
      (fun c hc => by cases c <;> first | rfl | exact absurd rfl hc)
      rfl (by rfl)).2.1⟩

/-- C11: for every public key, message and signature, `Verify` returns nil iff
the curve is Ed25519 and `ed25519.Verify` on the key, message and signature
returns true, or the curve is Secp256k1, the key parses, the signature parses
as DER and the parsed signature verifies the message under the parsed key. For
the curve Unset and for every unknown curve it returns an error, whatever the
message and the signature; for Secp256k1 a key that does not parse gives the
key-parse error whatever the signature is. -/
theorem C11_verify_returns_nil_iff {PubKey Sig : Type} (V : Verifiers PubKey Sig)
    (p : PublicKey) (msg signature : Bytes) :
    (p.Verify V msg signature = .returned none ↔
        (p.CurveType = .CurveTypeEd25519 ∧
          ed25519Verify V p.Key msg signature = .returned true) ∨
        (p.CurveType = .CurveTypeSecp256k1 ∧
          ∃ pub sig, V.ParsePubKey p.Key = .ok pub ∧
            V.ParseDERSignature signature = .ok sig ∧ V.sigVerify sig msg pub = true)) ∧
      ((p.CurveType = .CurveTypeUnset ∨ ∃ n, p.CurveType = .unknown n) →
        ∃ e, p.Verify V msg signature = .returned (some e)) ∧
      (p.CurveType = .CurveTypeSecp256k1 →
        ∀ err, V.ParsePubKey p.Key = .error err →
          ∀ signature2, p.Verify V msg signature2
            = .returned (some (.text
                ("could not parse secp256k1 public key: " ++ V.errText err)))) := by
  obtain ⟨c, key⟩ := p
  refine ⟨?_, ?_, ?_⟩
  · cases c with
    | CurveTypeUnset => simp [PublicKey.Verify]
    | unknown n => simp [PublicKey.Verify]
    | CurveTypeEd25519 =>
      simp only [PublicKey.Verify, true_and, false_and, or_false]
      cases h : ed25519Verify V key msg signature with
      | panicked => simp
      | returned b => cases b <;> simp
    | CurveTypeSecp256k1 =>
      simp only [PublicKey.Verify, true_and, false_and, false_or]
      cases hk : V.ParsePubKey key with
      | error err => simp
      | ok pub =>
        cases hs : V.ParseDERSignature signature with
        | error err => simp
        | ok sig =>
          by_cases hv : V.sigVerify sig msg pub = true
          · simp [hv]
          · simp [hv]
  · rintro (h | ⟨n, h⟩)
    · have hc : c = .CurveTypeUnset := h
      subst hc
      exact ⟨_, rfl⟩
    · have hc : c = .unknown n := h
      subst hc
      exact ⟨_, rfl⟩
  · intro h err hk signature2
    have hc : c = .CurveTypeSecp256k1 := h
    subst hc
    have hk2 : V.ParsePubKey key = .error err := hk
    simp [PublicKey.Verify, hk2]

/-- C11 at a 33-byte Secp256k1 key with the stand-in signature functions: a
signature that parses and verifies gives nil; an unset key gives an error. -/
theorem C11_verify_returns_nil_iff_witness :
    PublicKey.Verify sampleVerifiers sampleSecp256k1Key [1] [48, 3] = .returned none ∧
      ∃ e, PublicKey.Verify sampleVerifiers { CurveType := .CurveTypeUnset, Key := [] } [1] [48, 3]
        = .returned (some e) :=
  ⟨(C11_verify_returns_nil_iff sampleVerifiers sampleSecp256k1Key [1] [48, 3]).1.2
      (Or.inr ⟨rfl, sampleSecp256k1Key.Key, [48, 3], rfl, rfl, rfl⟩),
    (C11_verify_returns_nil_iff sampleVerifiers { CurveType := .CurveTypeUnset, Key := [] }
      [1] [48, 3]).2.1 (Or.inl rfl)⟩

theorem isSet_curve (p : PublicKey) (h : p.IsSet = true) :
    p.CurveType = .CurveTypeEd25519 ∨ p.CurveType = .CurveTypeSecp256k1 := by
  unfold PublicKey.IsSet at h
  simp only [Bool.and_eq_true] at h
  exact (publicKeyLength_ne_zero_iff p.CurveType).mp ((isValid_iff_length p).mp h.2).1

/-- C12: when `p.IsSet()` holds, `p.Address()` does not panic and returns, for
Ed25519, the address built from `tmhash.Sum` of the key bytes and, for
Secp256k1, the address built from RIPEMD-160 of SHA-256 of the key bytes. The
result depends on the curve and the key bytes only, and the call panics
exactly when the curve is neither Ed25519 nor Secp256k1. -/
theorem C12_address_of_set_key {A : Type} (H : Hashers) (F : AddressFunctions A)
    (p : PublicKey) :
    (p.IsSet = true →
        (p.CurveType = .CurveTypeEd25519 ∧
          p.Address H F = .returned (F.AddressFromBytes (F.tmhashSum p.Key)).1) ∨
        (p.CurveType = .CurveTypeSecp256k1 ∧
          p.Address H F
            = .returned (F.AddressFromBytes (H.ripemd160 (H.sha256 p.Key))).1)) ∧
      (p.IsSet = true → p.Address H F ≠ .panicked) ∧
      (∀ q : PublicKey, q.CurveType = p.CurveType → q.Key = p.Key →
        q.Address H F = p.Address H F) ∧
      (p.Address H F = .panicked ↔
        p.CurveType ≠ .CurveTypeEd25519 ∧ p.CurveType ≠ .CurveTypeSecp256k1) := by
  obtain ⟨c, key⟩ := p
  refine ⟨fun hset => ?_, fun hset => ?_, ?_, ?_⟩
  · rcases isSet_curve _ hset with h | h
    · have hc : c = .CurveTypeEd25519 := h
      subst hc
      exact Or.inl ⟨rfl, rfl⟩
    · have hc : c = .CurveTypeSecp256k1 := h
      subst hc
      exact Or.inr ⟨rfl, rfl⟩
  · rcases isSet_curve _ hset with h | h
    · have hc : c = .CurveTypeEd25519 := h
      subst hc
      simp [PublicKey.Address]
    · have hc : c = .CurveTypeSecp256k1 := h
      subst hc
      simp [PublicKey.Address]
  · rintro ⟨qc, qkey⟩ hc hk
    have hc2 : qc = c := hc
    have hk2 : qkey = key := hk
    rw [hc2, hk2]
  · cases c <;> simp [PublicKey.Address]

/-- C12 at the sample Ed25519 key, and at a key of an unknown curve. -/
theorem C12_address_of_set_key_witness :
    sampleEd25519Key.IsSet = true ∧
      sampleEd25519Key.Address sampleHashers sampleAddressFunctions ≠ .panicked ∧
      PublicKey.Address sampleHashers sampleAddressFunctions
        { CurveType := .unknown 5, Key := [1] } = .panicked :=
  ⟨by decide,
    (C12_address_of_set_key sampleHashers sampleAddressFunctions sampleEd25519Key).2.1
      (by decide),
    (C12_address_of_set_key sampleHashers sampleAddressFunctions
      { CurveType := .unknown 5, Key := [1] }).2.2.2.2 ⟨by decide, by decide⟩⟩

/-- C13, what the code does: for every key of curve Secp256k1,
`PublicKeyFromABCIPubKey(p.ABCIPubKey())` succeeds with a key of curve Ed25519
holding the same bytes, which is not `p`; for a key of curve Ed25519 it gives
back `p`. -/
theorem C13_abci_secp256k1_comes_back_as_ed25519 (M : CurveTypeMethods) (key : Bytes) :
    PublicKeyFromABCIPubKey M
        (PublicKey.ABCIPubKey M { CurveType := .CurveTypeSecp256k1, Key := key })
      = .ok { CurveType := .CurveTypeEd25519, Key := key } ∧
    PublicKeyFromABCIPubKey M
        (PublicKey.ABCIPubKey M { CurveType := .CurveTypeSecp256k1, Key := key })
      ≠ .ok { CurveType := .CurveTypeSecp256k1, Key := key } ∧
    PublicKeyFromABCIPubKey M
        (PublicKey.ABCIPubKey M { CurveType := .CurveTypeEd25519, Key := key })
      = .ok { CurveType := .CurveTypeEd25519, Key := key } := by
  have h1 : PublicKeyFromABCIPubKey M
      (PublicKey.ABCIPubKey M { CurveType := .CurveTypeSecp256k1, Key := key })
      = .ok { CurveType := .CurveTypeEd25519, Key := key } := by
    unfold PublicKeyFromABCIPubKey PublicKey.ABCIPubKey PublicKey.RawBytes
    by_cases h : M.ABCIType .CurveTypeSecp256k1 = M.ABCIType .CurveTypeEd25519
    · simp [h]
    · simp [h]
  refine ⟨h1, ?_, ?_⟩
  · rw [h1]
    intro h
    cases h
  · simp [PublicKeyFromABCIPubKey, PublicKey.ABCIPubKey, PublicKey.RawBytes]

/-- C14: after `registerNativeContracts` runs on the empty registry, the
addresses `Int64ToWord256(2)`, `Int64ToWord256(3)` and `Int64ToWord256(4)` are
bound to `sha256Func`, `ripemd160Func` and `identityFunc`, every other address
is unregistered, and in particular `Int64ToWord256(1)` is unregistered, so
dispatching to it fails with the error for an address without native contract.
On any registry, the addresses other than these three keep what they had. The
four words are distinct. -/
theorem C14_startup_registrations {W σ κ L : Type} [DecidableEq W] (I : Int → W)
    (G : GasConstants) (H : Hashers) (T : Texts W)
    (h12 : I 1 ≠ I 2) (h13 : I 1 ≠ I 3) (h14 : I 1 ≠ I 4)
    (h23 : I 2 ≠ I 3) (h24 : I 2 ≠ I 4) (h34 : I 3 ≠ I 4) :
    registerNativeContracts I G H (emptyRegistry W σ κ L) (I 2) = some (sha256Func G H) ∧
      registerNativeContracts I G H (emptyRegistry W σ κ L) (I 3)
        = some (ripemd160Func G H) ∧
      registerNativeContracts I G H (emptyRegistry W σ κ L) (I 4) = some (identityFunc G) ∧
      (∀ a, a ≠ I 2 → a ≠ I 3 → a ≠ I 4 →
        IsRegisteredNativeContract (registerNativeContracts I G H (emptyRegistry W σ κ L)) a
          = false) ∧
      (∀ (reg : Registry W σ κ L) (a : W), a ≠ I 2 → a ≠ I 3 → a ≠ I 4 →
        registerNativeContracts I G H reg a = reg a) ∧
      IsRegisteredNativeContract (registerNativeContracts I G H (emptyRegistry W σ κ L)) (I 1)
        = false ∧
      (∀ (state : σ) (caller : κ) (input : Bytes) (gas : Nat) (logger : L),
        ExecuteNativeContract T (registerNativeContracts I G H (emptyRegistry W σ κ L)) (I 1)
            state caller input gas logger
          = { output := [],
              err := some (.exception .ErrorCodeNativeFunction
                ("no native contract registered at address: " ++ T.address (I 1))),
              gas := gas, state := state }) := by
  have hother : ∀ (reg : Registry W σ κ L) (a : W), a ≠ I 2 → a ≠ I 3 → a ≠ I 4 →
      registerNativeContracts I G H reg a = reg a := by
    intro reg a h2 h3 h4
    simp [registerNativeContracts, Registry.insert, h2, h3, h4]
  have h1 : registerNativeContracts I G H (emptyRegistry W σ κ L) (I 1) = none := by
    rw [hother _ _ h12 h13 h14]
    rfl
  refine ⟨?_, ?_, ?_, ?_, hother, ?_, ?_⟩
  · simp [registerNativeContracts, Registry.insert, h23, h24]
  · simp [registerNativeContracts, Registry.insert, h34]
  · simp [registerNativeContracts, Registry.insert]
  · intro a h2 h3 h4
    unfold IsRegisteredNativeContract
    rw [hother _ _ h2 h3 h4]
    rfl
  · unfold IsRegisteredNativeContract
    rw [h1]
    rfl
  · intro state caller input gas logger
    unfold ExecuteNativeContract
    rw [h1, errorCodef_eq]

/-- C14 with natural numbers as addresses and `Int.toNat` as the conversion. -/
theorem C14_startup_registrations_witness :
    Int.toNat 1 ≠ Int.toNat 2 ∧ Int.toNat 3 ≠ Int.toNat 4 ∧
      registerNativeContracts Int.toNat sampleGas sampleHashers
          (emptyRegistry Nat Unit Unit Unit) (Int.toNat 2)
        = some (sha256Func sampleGas sampleHashers) ∧
      IsRegisteredNativeContract
          (registerNativeContracts Int.toNat sampleGas sampleHashers
            (emptyRegistry Nat Unit Unit Unit)) (Int.toNat 1) = false :=
  ⟨by decide, by decide,
    (C14_startup_registrations Int.toNat sampleGas sampleHashers sampleTexts (by decide)
      (by decide) (by decide) (by decide) (by decide) (by decide)).1,
    (C14_startup_registrations Int.toNat sampleGas sampleHashers sampleTexts (by decide)
      (by decide) (by decide) (by decide) (by decide) (by decide)).2.2.2.2.2.1⟩

/-- C15: `PublicKeyLength` returns 32 for Ed25519, 33 for Secp256k1 and 0 for
every other curve value, Unset or unknown; so it returns 0 exactly for the
curves that are not supported, and the length of a key of a supported curve is
never 0. -/
theorem C15_publicKeyLength_values (c : CurveType) :
    PublicKeyLength .CurveTypeEd25519 = 32 ∧
      PublicKeyLength .CurveTypeSecp256k1 = 33 ∧
      PublicKeyLength .CurveTypeUnset = 0 ∧
      (∀ n, PublicKeyLength (.unknown n) = 0) ∧
      (c ≠ .CurveTypeEd25519 → c ≠ .CurveTypeSecp256k1 → PublicKeyLength c = 0) ∧
      (PublicKeyLength c = 0 ↔ ¬ (c = .CurveTypeEd25519 ∨ c = .CurveTypeSecp256k1)) ∧
      (c = .CurveTypeEd25519 ∨ c = .CurveTypeSecp256k1 → PublicKeyLength c ≠ 0) := by
  have hiff := publicKeyLength_ne_zero_iff c
  refine ⟨rfl, rfl, rfl, fun _ => rfl, fun h1 h2 => ?_, ?_, hiff.mpr⟩
  · by_contra h0
    rcases hiff.mp h0 with h | h
    · exact h1 h
    · exact h2 h
  · rw [← hiff]
    exact ⟨fun h hn => hn h, fun h => by_contra h⟩

/-- C15 at an unknown curve value and at Secp256k1. -/
theorem C15_publicKeyLength_values_witness :
    PublicKeyLength (.unknown 9) = 0 ∧ PublicKeyLength .CurveTypeSecp256k1 ≠ 0 :=
  ⟨(C15_publicKeyLength_values (.unknown 9)).2.2.2.2.1 (by decide) (by decide),
    (C15_publicKeyLength_values .CurveTypeSecp256k1).2.2.2.2.2.2 (Or.inr rfl)⟩

/-- C16: for every input, the empty one included, and every gas value that is
at least the required gas, `identityFunc` returns no error and its output is
the input, byte for byte. -/
theorem C16_identity_returns_input {σ κ L : Type} (G : GasConstants) (state : σ) (caller : κ)
    (input : Bytes) (g : Nat) (logger : L)
    (hgas : gasRequired G.GasIdentityWord G.GasIdentityBase input ≤ g) :
    (identityFunc G state caller input g logger).err = none ∧
      (identityFunc G state caller input g logger).output = input ∧
      (input = [] → (identityFunc G state caller input g logger).output = []) := by
  have hnot : ¬ g < gasRequired G.GasIdentityWord G.GasIdentityBase input := Nat.not_lt.mpr hgas
  have hout : (identityFunc G state caller input g logger).output = input := by
    simp [identityFunc, hnot]
  refine ⟨by simp [identityFunc, hnot], hout, fun he => ?_⟩
  rw [hout, he]

/-- C16 at the empty input with exactly the base cost, and at three bytes. -/
theorem C16_identity_returns_input_witness :
    gasRequired sampleGas.GasIdentityWord sampleGas.GasIdentityBase [] ≤ 15 ∧
      (identityFunc sampleGas () () [] 15 ()).output = [] ∧
      (identityFunc sampleGas () () [7, 8, 9] 18 ()).output = [7, 8, 9] :=
  ⟨by decide,
    (C16_identity_returns_input sampleGas () () [] 15 () (by decide)).2.1,
    (C16_identity_returns_input sampleGas () () [7, 8, 9] 18 () (by decide)).2.1⟩

/-- C17: for every input and every gas value that is at least the required
gas, `ripemd160Func` returns no error and an output of exactly 32 bytes: 12 zero
bytes followed by the RIPEMD-160 digest of the input, which has 20 bytes. -/
theorem C17_ripemd160_left_padded {σ κ L : Type} (G : GasConstants) (H : Hashers) (state : σ)
    (caller : κ) (input : Bytes) (g : Nat) (logger : L)
    (hdigest : (H.ripemd160 input).length = 20)
    (hgas : gasRequired G.GasRipemd160Word G.GasRipemd160Base input ≤ g) :
    (ripemd160Func G H state caller input g logger).err = none ∧
      (ripemd160Func G H state caller input g logger).output.length = 32 ∧
      (ripemd160Func G H state caller input g logger).output
        = List.replicate 12 0 ++ H.ripemd160 input ∧
      (ripemd160Func G H state caller input g logger).output.take 12 = List.replicate 12 0 ∧
      (ripemd160Func G H state caller input g logger).output.drop 12 = H.ripemd160 input := by
  have hnot : ¬ g < gasRequired G.GasRipemd160Word G.GasRipemd160Base input :=
    Nat.not_lt.mpr hgas
  have hout : (ripemd160Func G H state caller input g logger).output
      = List.replicate 12 0 ++ H.ripemd160 input := by
    simp [ripemd160Func, hnot, LeftPadBytes, hdigest]
  refine ⟨by simp [ripemd160Func, hnot], ?_, hout, ?_, ?_⟩
  · rw [hout]
    simp [hdigest]
  · rw [hout]
    simp
  · rw [hout]
    simp

/-- C17 at a three-byte input with the stand-in digest. -/
theorem C17_ripemd160_left_padded_witness :
    (sampleHashers.ripemd160 [1, 2, 3]).length = 20 ∧
      gasRequired sampleGas.GasRipemd160Word sampleGas.GasRipemd160Base [1, 2, 3] ≤ 720 ∧
      (ripemd160Func sampleGas sampleHashers () () [1, 2, 3] 720 ()).output
        = List.replicate 12 0 ++ List.replicate 20 3 :=
  ⟨by decide, by decide,
    (C17_ripemd160_left_padded sampleGas sampleHashers () () [1, 2, 3] 720 () (by decide)
      (by decide)).2.2.1⟩

/-- C18: the three reference native functions are functions of the input and
the available gas alone. Two calls of the same function with the same input
and the same gas, under any two states, callers and loggers, give the same
output, the same error and the same gas counter, and each call leaves the
state it was given. -/
theorem C18_native_functions_pure {σ κ L : Type} (G : GasConstants) (H : Hashers)
    (state1 state2 : σ) (caller1 caller2 : κ) (logger1 logger2 : L) (input : Bytes)
    (g : Nat) :
    ((sha256Func G H state1 caller1 input g logger1).output
          = (sha256Func G H state2 caller2 input g logger2).output ∧
        (sha256Func G H state1 caller1 input g logger1).err
          = (sha256Func G H state2 caller2 input g logger2).err ∧
        (sha256Func G H state1 caller1 input g logger1).gas
          = (sha256Func G H state2 caller2 input g logger2).gas ∧
        (sha256Func G H state1 caller1 input g logger1).state = state1) ∧
      ((ripemd160Func G H state1 caller1 input g logger1).output
          = (ripemd160Func G H state2 caller2 input g logger2).output ∧
        (ripemd160Func G H state1 caller1 input g logger1).err
          = (ripemd160Func G H state2 caller2 input g logger2).err ∧
        (ripemd160Func G H state1 caller1 input g logger1).gas
          = (ripemd160Func G H state2 caller2 input g logger2).gas ∧
        (ripemd160Func G H state1 caller1 input g logger1).state = state1) ∧
      ((identityFunc G state1 caller1 input g logger1).output
          = (identityFunc G state2 caller2 input g logger2).output ∧
        (identityFunc G state1 caller1 input g logger1).err
          = (identityFunc G state2 caller2 input g logger2).err ∧
        (identityFunc G state1 caller1 input g logger1).gas
          = (identityFunc G state2 caller2 input g logger2).gas ∧
        (identityFunc G state1 caller1 input g logger1).state = state1) := by
  refine ⟨?_, ?_, ?_⟩
  · unfold sha256Func
    by_cases h : g < gasRequired G.GasSha256Word G.GasSha256Base input <;> simp [h]
  · unfold ripemd160Func
    by_cases h : g < gasRequired G.GasRipemd160Word G.GasRipemd160Base input <;> simp [h]
  · unfold identityFunc
    by_cases h : g < gasRequired G.GasIdentityWord G.GasIdentityBase input <;> simp [h]

/-- C19, what the code does: `Verify` panics exactly on a key of curve Ed25519
whose `Key` is not 32 bytes long, whatever the message and the signature; so
on the Ed25519 key with the two bytes 1, 2 it panics and returns nothing to
its caller. -/
theorem C19_verify_panics_on_bad_ed25519_length {PubKey Sig : Type}
    (V : Verifiers PubKey Sig) (p : PublicKey) (msg signature : Bytes) :
    (p.Verify V msg signature = .panicked ↔
        p.CurveType = .CurveTypeEd25519 ∧ p.Key.length ≠ 32) ∧
      PublicKey.Verify V { CurveType := .CurveTypeEd25519, Key := [1, 2] } msg signature
        = .panicked ∧
      ¬ ∃ r, PublicKey.Verify V { CurveType := .CurveTypeEd25519, Key := [1, 2] } msg signature
        = .returned r := by
  have hbad : PublicKey.Verify V { CurveType := .CurveTypeEd25519, Key := [1, 2] } msg signature
      = .panicked := by
    simp [PublicKey.Verify, ed25519Verify]
  refine ⟨?_, hbad, ?_⟩
  · obtain ⟨c, key⟩ := p
    cases c with
    | CurveTypeUnset => simp [PublicKey.Verify]
    | unknown n => simp [PublicKey.Verify]
    | CurveTypeEd25519 =>
      simp only [PublicKey.Verify, ed25519Verify, true_and]
      by_cases hlen : key.length = 32
      · cases hv : V.ed25519 key msg signature <;> simp [hlen, hv]
      · simp [hlen]
    | CurveTypeSecp256k1 =>
      simp only [PublicKey.Verify, false_and, iff_false]
      cases hk : V.ParsePubKey key with
      | error err => simp
      | ok pub =>
        cases hs : V.ParseDERSignature signature with
        | error err => simp
        | ok sig =>
          by_cases hv : V.sigVerify sig msg pub = true
          · simp [hv]
          · simp [hv]
  · rintro ⟨r, hr⟩
    rw [hbad] at hr
    cases hr

/-- C20, the claim as stated fails: with the empty name read as `Unset`, the
text with an empty name and an empty key is decoded without error into an
unset key with no bytes, whose length is the expected length of its curve, 0,
and which is not valid. -/
theorem C20_counterexample :
    ¬ ((PublicKey.UnmarshalJSON unsetNamedCurveTypeMethods sampleJSON sampleEd25519Key [10]).2
          = none →
        ((PublicKey.UnmarshalJSON unsetNamedCurveTypeMethods sampleJSON sampleEd25519Key
            [10]).1.IsValid = true ↔
          (PublicKey.UnmarshalJSON unsetNamedCurveTypeMethods sampleJSON sampleEd25519Key
              [10]).1.Key.length
            = PublicKeyLength
                (PublicKey.UnmarshalJSON unsetNamedCurveTypeMethods sampleJSON sampleEd25519Key
                  [10]).1.CurveType)) := by
  decide

/-- C20, amended: `UnmarshalJSON` is atomic on failure. Whenever it returns an
error, which is the error of the JSON text, of the curve name or of the
hexadecimal text, the receiver is exactly what it was before the call; the
receiver is assigned only when all three steps succeeded. There is no length
check: on success the receiver holds the curve of the name and the decoded
bytes, and `IsValid()` is true iff the number of bytes equals the expected
length of the curve and that expected length is not 0. -/
theorem C20_unmarshal_atomic (M : CurveTypeMethods) (J : JSONCodec) (p : PublicKey)
    (text : Bytes) :
    ((p.UnmarshalJSON M J text).2 ≠ none → (p.UnmarshalJSON M J text).1 = p) ∧
      (∀ e, (p.UnmarshalJSON M J text).2 = some e →
        J.Unmarshal text = .error e ∨
        (∃ j, J.Unmarshal text = .ok j ∧ M.CurveTypeFromString j.CurveType = .error e) ∨
        (∃ j c, J.Unmarshal text = .ok j ∧ M.CurveTypeFromString j.CurveType = .ok c ∧
          DecodeString j.PublicKey = .error e)) ∧
      ((p.UnmarshalJSON M J text).2 = none →
        ∃ j c bs, J.Unmarshal text = .ok j ∧ M.CurveTypeFromString j.CurveType = .ok c ∧
          DecodeString j.PublicKey = .ok bs ∧
          (p.UnmarshalJSON M J text).1 = { CurveType := c, Key := bs } ∧
          ((p.UnmarshalJSON M J text).1.IsValid = true ↔
            bs.length = PublicKeyLength c ∧ PublicKeyLength c ≠ 0)) ∧
      ((p.UnmarshalJSON M J text).1 ≠ p → (p.UnmarshalJSON M J text).2 = none) := by
  cases hj : J.Unmarshal text with
  | error e1 =>
    have hr : p.UnmarshalJSON M J text = (p, some e1) := by
      simp [PublicKey.UnmarshalJSON, hj]
    rw [hr]
    refine ⟨fun _ => rfl, fun e he => Or.inl ?_, fun h => by simp at h, fun h => absurd rfl h⟩
    have he2 : e1 = e := by simpa using he
    rw [he2]
  | ok j =>
    cases hc : M.CurveTypeFromString j.CurveType with
    | error e2 =>
      have hr : p.UnmarshalJSON M J text = (p, some e2) := by
        simp [PublicKey.UnmarshalJSON, hj, hc]
      rw [hr]
      refine ⟨fun _ => rfl, fun e he => Or.inr (Or.inl ⟨j, rfl, ?_⟩), fun h => by simp at h,
        fun h => absurd rfl h⟩
      have he2 : e2 = e := by simpa using he
      rw [hc, he2]
    | ok c =>
      cases hb : DecodeString j.PublicKey with
      | error e3 =>
        have hr : p.UnmarshalJSON M J text = (p, some e3) := by
          simp [PublicKey.UnmarshalJSON, hj, hc, hb]
        rw [hr]
        refine ⟨fun _ => rfl, fun e he => Or.inr (Or.inr ⟨j, c, rfl, hc, ?_⟩),
          fun h => by simp at h, fun h => absurd rfl h⟩
        have he2 : e3 = e := by simpa using he
        rw [hb, he2]
      | ok bs =>
        have hr : p.UnmarshalJSON M J text = ({ CurveType := c, Key := bs }, none) := by
          simp [PublicKey.UnmarshalJSON, hj, hc, hb]
        rw [hr]
        refine ⟨fun h => absurd rfl h, fun e he => by simp at he, fun _ => ?_, fun _ => rfl⟩
        refine ⟨j, c, bs, rfl, hc, hb, rfl, ?_⟩
        rw [isValid_iff_length]
        exact ⟨fun h => ⟨h.2, h.1⟩, fun h => ⟨h.2, h.1⟩⟩

/-- C20 amended, at a text the stand-in codec rejects (the receiver stays) and
at the text of the sample Ed25519 key (the receiver becomes that key). -/
theorem C20_unmarshal_atomic_witness :
    (PublicKey.UnmarshalJSON sampleCurveTypeMethods sampleJSON sampleSecp256k1Key []).2 ≠ none ∧
      (PublicKey.UnmarshalJSON sampleCurveTypeMethods sampleJSON sampleSecp256k1Key []).1
        = sampleSecp256k1Key ∧
      (PublicKey.UnmarshalJSON sampleCurveTypeMethods sampleJSON sampleSecp256k1Key
          (sampleEd25519Key.MarshalJSON sampleCurveTypeMethods sampleJSON).1).1
        ≠ sampleSecp256k1Key ∧
      (PublicKey.UnmarshalJSON sampleCurveTypeMethods sampleJSON sampleSecp256k1Key
          (sampleEd25519Key.MarshalJSON sampleCurveTypeMethods sampleJSON).1).2 = none :=
  ⟨by decide,
    (C20_unmarshal_atomic sampleCurveTypeMethods sampleJSON sampleSecp256k1Key []).1 (by decide),
    by decide,
    (C20_unmarshal_atomic sampleCurveTypeMethods sampleJSON sampleSecp256k1Key
      (sampleEd25519Key.MarshalJSON sampleCurveTypeMethods sampleJSON).1).2.2.2 (by decide)⟩

end Burrow
